import Mathlib

/-!
# Multi-window particle scene (`main.js`): a shallow embedding

The page script `main.js` drives a three.js scene from the window registry
kept by `WindowManager`.  This development embeds the script's module state
and its functions as pure Lean functions over an explicit state record and
proves the properties the specification states about them.

Modelling conventions.

* JavaScript numbers are exact rationals (`ℚ`); clock readings are integer
  milliseconds.  Statements about arithmetic are statements in exact
  arithmetic.
* three.js objects are reduced to the fields the script reads or writes.  A
  particle system is allocated at a fresh address (`State.nextAddr`), so that
  `world.remove` / `world.add`, which work by object identity, can be
  followed.
* `WindowManager.js` is imported by the script and is not part of the
  sources.  Whatever a call into the manager answers is supplied by the
  environment record of the step (`FrameEnv`, `BootEnv`).  The registry
  ordering itself is modelled from the specification in the `Registry`
  section.
* `State.calls` is a ghost trace of the calls the script makes to its
  collaborators, in program order.
-/

namespace MultiWindow

/-! ## Clock -/

/-- Milliseconds in a day. -/
def msPerDay : Int := 86400000

/-- Lines 11-16: `today = new Date(); today.setHours(0); ...; today.getTime()`.
`loadMs` is the clock reading (epoch milliseconds) when the module is
evaluated and `tz` the offset of local time in milliseconds; the result is the
epoch reading of local midnight of the day of loading. -/
def today (tz loadMs : Int) : Int :=
  loadMs - (loadMs + tz) % msPerDay

/-- Lines 23-26: `getTime()`, `(new Date().getTime() - today) / 1000.0`. -/
def getTime (todayMs nowMs : Int) : ℚ :=
  ((nowMs - todayMs : Int) : ℚ) / 1000

/-- Seconds elapsed at `nowMs` since local midnight of the day `nowMs` lies in. -/
def secondsSinceStartOfDay (tz nowMs : Int) : ℚ :=
  (((nowMs + tz) % msPerDay : Int) : ℚ) / 1000

/-! ## Data -/

/-- A pair of coordinates, `{x, y}`. -/
structure Vec2 where
  x : ℚ
  y : ℚ
deriving DecidableEq

/-- The `shape` of a registry entry, `{x, y, w, h}`. -/
structure Shape where
  x : ℚ
  y : ℚ
  w : ℚ
  h : ℚ
deriving DecidableEq

/-- One entry of the registry as the script receives it from `getWindows()`. -/
structure WindowEntry where
  id : String
  shape : Shape
  metaData : List (String × String)
  lastSeen : Nat
deriving DecidableEq

/-- The `t.Points` object returned by `createParticleSystem`, reduced to what
the script reads or writes afterwards: the `windowIndex` uniform, the centre
around which the spiral geometry was laid out, the object's `position` and the
`time` uniform. -/
structure ParticleSystem where
  windowIndex : Nat
  centerX : ℚ
  centerY : ℚ
  position : Vec2
  time : ℚ
deriving DecidableEq

/-- The `world` object: the addresses of its children and its `position`. -/
structure World where
  children : List Nat
  position : Vec2
deriving DecidableEq

/-- `Object3D.remove(object)`: splices the object out of `children` when it is
there. -/
def World.remove (w : World) (a : Nat) : World :=
  { w with children := w.children.erase a }

/-- `Object3D.add(object)`: detaches the object from its parent when it has one,
then pushes it onto `children`. -/
def World.add (w : World) (a : Nat) : World :=
  { w with children := w.children.erase a ++ [a] }

/-- What the variable `sceneOffset` refers to: an object of its own, or the very
object `sceneOffsetTarget` refers to (after `sceneOffset = sceneOffsetTarget`). -/
inductive OffsetRef where
  | own (v : Vec2)
  | sameAsTarget
deriving DecidableEq

/-- An argument value as a callback may receive it. -/
inductive Arg where
  | undefined
  | null
  | boolean (b : Bool)
  | number (q : ℚ)
  | object (shape : Shape)
deriving DecidableEq

/-- JavaScript truthiness. -/
def Arg.truthy : Arg → Bool
  | .undefined => false
  | .null => false
  | .boolean b => b
  | .number q => decide (q ≠ 0)
  | .object _ => true

/-- The default parameter `easing = true`: it replaces a missing (undefined)
argument. -/
def Arg.orDefaultTrue : Arg → Arg
  | .undefined => .boolean true
  | a => a

/-- `document.visibilityState`. -/
inductive Visibility where
  | visible
  | hidden
  | prerender
deriving DecidableEq

/-- Calls of the script that the ghost trace records. -/
inductive Call where
  | init
  | managerInit
  | managerUpdate
  | managerGetWindows
  | windowsUpdated
  | rendererRender
  | requestAnimationFrame
deriving DecidableEq

/-- How a call of `render` ends. -/
inductive Outcome where
  | completed
  | threw
deriving DecidableEq

/-- The module state of `main.js`. -/
structure State where
  /-- The `else` branch of line 132 ran: the two handlers are installed. -/
  listening : Bool
  initialized : Bool
  today : Int
  /-- Pending `setTimeout(..., 500)` callbacks of `init`. -/
  timeouts : Nat
  /-- Pending `requestAnimationFrame(render)` callbacks. -/
  rafQueue : Nat
  /-- Whether `windowManager` holds a manager. -/
  windowManager : Bool
  world : World
  /-- The array `particleSystems`: address and content of each object. -/
  particleSystems : List (Nat × ParticleSystem)
  sceneOffsetTarget : Vec2
  sceneOffset : OffsetRef
  /-- Next free object address. -/
  nextAddr : Nat
  /-- Ghost: calls made so far, in program order. -/
  calls : List Call
  /-- Ghost: number of callbacks that ended with an uncaught exception. -/
  faults : Nat
deriving DecidableEq

/-- The value of the object `sceneOffset` refers to. -/
def State.offset (s : State) : Vec2 :=
  match s.sceneOffset with
  | .own v => v
  | .sameAsTarget => s.sceneOffsetTarget

/-- The assignment `sceneOffset.x = v`; it writes through to the target object
when both variables refer to one object. -/
def State.setOffsetX (s : State) (v : ℚ) : State :=
  match s.sceneOffset with
  | .own o => { s with sceneOffset := .own { o with x := v } }
  | .sameAsTarget => { s with sceneOffsetTarget := { s.sceneOffsetTarget with x := v } }

/-- The assignment `sceneOffset.y = v`. -/
def State.setOffsetY (s : State) (v : ℚ) : State :=
  match s.sceneOffset with
  | .own o => { s with sceneOffset := .own { o with y := v } }
  | .sameAsTarget => { s with sceneOffsetTarget := { s.sceneOffsetTarget with y := v } }

/-- The module state after the top level of the script has run (lines 4-20 and
132-152); `clear` tells whether the URL carries a truthy `clear` parameter. -/
def initial (clear : Bool) (tz loadMs : Int) : State :=
  { listening := !clear
    initialized := false
    today := today tz loadMs
    timeouts := 0
    rafQueue := 0
    windowManager := false
    world := ⟨[], ⟨0, 0⟩⟩
    particleSystems := []
    sceneOffsetTarget := ⟨0, 0⟩
    sceneOffset := .own ⟨0, 0⟩
    nextAddr := 0
    calls := []
    faults := 0 }

/-! ## The script's functions -/

/-- Lines 29-130: `createParticleSystem(windowIndex, centerX, centerY)`.  The
new object has the default position and a `time` uniform of zero.  The attribute
buffers (the spiral laid out around the centre, the random ages and opacities) are
left out: the script never reads them back. -/
def createParticleSystem (windowIndex : Nat) (centerX centerY : ℚ) : ParticleSystem :=
  { windowIndex := windowIndex
    centerX := centerX
    centerY := centerY
    position := ⟨0, 0⟩
    time := 0 }

/-- Lines 154-167: `init()`. -/
def init (s : State) : State :=
  { s with
    initialized := true
    timeouts := s.timeouts + 1
    calls := s.calls ++ [Call.init] }

/-- Lines 139-145: the `visibilitychange` listener. -/
def onVisibilityChange (v : Visibility) (s : State) : State :=
  if v ≠ Visibility.hidden ∧ s.initialized = false then init s else s

/-- Lines 147-152: `window.onload`. -/
def onLoad (v : Visibility) (s : State) : State :=
  if v ≠ Visibility.hidden then init s else s

/-- Lines 169-189: `setupScene()`; of the objects it creates only `world`, a
new and empty `Object3D`, is part of the state. -/
def setupScene (s : State) : State :=
  { s with world := ⟨[], ⟨0, 0⟩⟩ }

/-- Lines 224-233: the loop of `updateParticleSystems` from index `i` on, over
the entries of the snapshot that are still to be visited. -/
def addParticleSystems : List WindowEntry → Nat → State → State
  | [], _, s => s
  | win :: rest, i, s =>
    let centerX := win.shape.x + win.shape.w * (1 / 2)
    let centerY := win.shape.y + win.shape.h * (1 / 2)
    let particleSystem := createParticleSystem i centerX centerY
    addParticleSystems rest (i + 1)
      { s with
        nextAddr := s.nextAddr + 1
        world := s.world.add s.nextAddr
        particleSystems := s.particleSystems ++ [(s.nextAddr, particleSystem)] }

/-- Lines 212-234: `updateParticleSystems()`; `wins` is what `getWindows()`
answers. -/
def updateParticleSystems (wins : List WindowEntry) (s : State) : State :=
  let s1 := { s with calls := s.calls ++ [Call.managerGetWindows] }
  let s2 :=
    { s1 with
      world := s1.particleSystems.foldl (fun (w : World) (ps : Nat × ParticleSystem) => w.remove ps.1) s1.world }
  let s3 := { s2 with particleSystems := [] }
  addParticleSystems wins 0 s3

/-- Lines 207-210: `windowsUpdated()`. -/
def windowsUpdated (wins : List WindowEntry) (s : State) : State :=
  updateParticleSystems wins { s with calls := s.calls ++ [Call.windowsUpdated] }

/-- Lines 191-205: `setupWindowManager()`; `wins` is what `getWindows()`
answers right after `windowManager.init(metaData)`. -/
def setupWindowManager (wins : List WindowEntry) (s : State) : State :=
  let s1 := { s with windowManager := true, calls := s.calls ++ [Call.managerInit] }
  windowsUpdated wins s1

/-- Lines 236-241: `updateWindowShape(easing = true)` with `window.screenX`,
`window.screenY` as given.  The target variable is bound to a new object; the
offset variable is bound to that same object when `easing` is falsy and keeps
referring to the object it referred to otherwise. -/
def updateWindowShape (screenX screenY : ℚ) (easing : Arg) (s : State) : State :=
  let old := s.offset
  let s1 := { s with sceneOffsetTarget := ⟨-screenX, -screenY⟩, sceneOffset := OffsetRef.own old }
  if easing.orDefaultTrue.truthy = false then { s1 with sceneOffset := OffsetRef.sameAsTarget } else s1

/-- The easing factor, `falloff = .05`. -/
def falloff : ℚ := 1 / 20

/-- What the environment answers during one call of `render`. -/
structure FrameEnv where
  /-- The clock: `new Date().getTime()`. -/
  now : Int
  screenX : ℚ
  screenY : ℚ
  /-- The argument with which `windowManager.update()` invokes the shape-change
  callback, when it invokes it. -/
  shapeChange : Option Arg
  /-- The answer of `getWindows()`. -/
  windows : List WindowEntry

/-- Lines 261-273: the loop of `render` from index `i` on, over the particle
systems still to be visited.  Reading `win.shape` of a missing `wins[i]`
throws; the systems visited before keep their new values. -/
def renderLoop (wins : List WindowEntry) (t : ℚ) :
    Nat → List (Nat × ParticleSystem) → Outcome × List (Nat × ParticleSystem)
  | _, [] => (Outcome.completed, [])
  | i, (a, particleSystem) :: rest =>
    match wins[i]? with
    | none => (Outcome.threw, (a, particleSystem) :: rest)
    | some win =>
      let posTarget : Vec2 :=
        ⟨win.shape.x + win.shape.w * (1 / 2), win.shape.y + win.shape.h * (1 / 2)⟩
      let px := particleSystem.position.x + (posTarget.x - particleSystem.position.x) * falloff
      let py := particleSystem.position.y + (posTarget.y - particleSystem.position.y) * falloff
      let moved := { particleSystem with position := ⟨px, py⟩, time := t }
      let r := renderLoop wins t (i + 1) rest
      (r.1, (a, moved) :: r.2)

/-- Line 247: `windowManager.update()`, which may invoke the shape-change
callback `updateWindowShape` before it returns. -/
def managerUpdate (env : FrameEnv) (s : State) : State :=
  let s1 := { s with calls := s.calls ++ [Call.managerUpdate] }
  match env.shapeChange with
  | none => s1
  | some a => updateWindowShape env.screenX env.screenY a s1

/-- Lines 250-252: one easing step of `sceneOffset` toward `sceneOffsetTarget`. -/
def easeSceneOffset (s : State) : State :=
  let s1 := s.setOffsetX (s.offset.x + (s.sceneOffsetTarget.x - s.offset.x) * falloff)
  s1.setOffsetY (s1.offset.y + (s1.sceneOffsetTarget.y - s1.offset.y) * falloff)

/-- Lines 255-256: `world.position` takes the value of `sceneOffset`. -/
def placeWorld (s : State) : State :=
  { s with world := { s.world with position := ⟨s.offset.x, s.offset.y⟩ } }

/-- Lines 245-256: `render()` up to and including the world position. -/
def renderOffset (env : FrameEnv) (s : State) : State :=
  placeWorld (easeSceneOffset (managerUpdate env s))

/-- Lines 243-277: `render()`. -/
def render (env : FrameEnv) (s : State) : Outcome × State :=
  let t := getTime s.today env.now
  let s5 := renderOffset env s
  let s6 := { s5 with calls := s5.calls ++ [Call.managerGetWindows] }
  let wins := env.windows
  match renderLoop wins t 0 s6.particleSystems with
  | (Outcome.threw, pss) => (Outcome.threw, { s6 with particleSystems := pss })
  | (Outcome.completed, pss) =>
    (Outcome.completed,
      { s6 with
        particleSystems := pss
        calls := s6.calls ++ [Call.rendererRender, Call.requestAnimationFrame]
        rafQueue := s6.rafQueue + 1 })

/-! ## Events -/

/-- A callback that calls `render`: an exception it throws is counted. -/
def renderCallback (env : FrameEnv) (s : State) : State :=
  match render env s with
  | (Outcome.completed, s1) => s1
  | (Outcome.threw, s1) => { s1 with faults := s1.faults + 1 }

/-- What the environment answers while the timer callback of `init` runs. -/
structure BootEnv where
  /-- The answer of `getWindows()` inside `setupWindowManager`. -/
  windows : List WindowEntry
  screenX : ℚ
  screenY : ℚ
  /-- The answers during the first call of `render`. -/
  frame : FrameEnv

/-- Lines 159-166: the timer callback of `init`.  `resize` touches the camera
and the renderer only. -/
def bootstrap (b : BootEnv) (s : State) : State :=
  let s1 := setupScene s
  let s2 := setupWindowManager b.windows s1
  let s3 := updateWindowShape b.screenX b.screenY (Arg.boolean false) s2
  renderCallback b.frame s3

/-- One animation frame: the callbacks requested before it run, those requested
during it wait for the next one. -/
def animationFrame (env : FrameEnv) (s : State) : State :=
  let queued := s.rafQueue
  let s1 := (renderCallback env)^[queued] { s with rafQueue := 0 }
  s1

/-- What the host can deliver to the page. -/
inductive Event where
  | load (v : Visibility)
  | visibilitychange (v : Visibility)
  | timeout (b : BootEnv)
  | animationFrame (env : FrameEnv)
  | windowChange (wins : List WindowEntry)
  | resize

/-- Delivery of one event. -/
def step (s : State) : Event → State
  | Event.load v => if s.listening then onLoad v s else s
  | Event.visibilitychange v => if s.listening then onVisibilityChange v s else s
  | Event.timeout b =>
    if s.timeouts = 0 then s else bootstrap b { s with timeouts := s.timeouts - 1 }
  | Event.animationFrame env => animationFrame env s
  | Event.windowChange wins => if s.windowManager then windowsUpdated wins s else s
  | Event.resize => s

/-- Delivery of a sequence of events. -/
def run (es : List Event) (s : State) : State :=
  es.foldl step s

/-! ## Runs of `render` -/

/-- Successive calls of `render()`, one per environment record. -/
def renders (envs : List FrameEnv) (s : State) : State :=
  envs.foldl (fun s env => (render env s).2) s

/-- The call of `update()` leaves the target at `T` and does not snap the offset:
either the shape-change callback is not invoked, or it is invoked with easing while the
window is where `T` says. -/
def FrameEnv.holdsTarget (T : Vec2) (env : FrameEnv) : Prop :=
  match env.shapeChange with
  | none => True
  | some a => (a = Arg.undefined ∨ a.truthy = true) ∧ -env.screenX = T.x ∧ -env.screenY = T.y

/-! ## Frame relations -/

/-- The state `r` differs from `s` at most in the two offset variables and the
position of `world`. -/
def OffsetOnly (s r : State) : Prop :=
  ∃ tgt off pos, r =
    { s with
      sceneOffsetTarget := tgt
      sceneOffset := off
      world := { s.world with position := pos } }

/-- The state `r` differs from `s` at most in the particle systems, the children
of `world` and the next free address. -/
def ParticlesOnly (s r : State) : Prop :=
  ∃ ch pss n, r =
    { s with
      nextAddr := n
      world := ⟨ch, s.world.position⟩
      particleSystems := pss }

/-! ## Well-formed addresses -/

/-- Addresses are handed out in increasing order and an object is a child of `world` at
most once: the children of `world` are pairwise distinct, and they and the listed
particle systems lie below the next free address. -/
def AddressesFresh (s : State) : Prop :=
  s.world.children.Nodup ∧ (∀ c ∈ s.world.children, c < s.nextAddr) ∧
    (∀ a ∈ s.particleSystems.map Prod.fst, a < s.nextAddr)

/-! ## Events of a run -/

/-- Whether the event is a `load` event. -/
def Event.isLoad : Event → Bool
  | Event.load _ => true
  | _ => false

/-- Whether the event is an animation frame. -/
def Event.isFrame : Event → Bool
  | Event.animationFrame _ => true
  | _ => false

/-- The state in which the timer callback of `init` calls `render`. -/
def beforeFirstRender (b : BootEnv) (s : State) : State :=
  updateWindowShape b.screenX b.screenY (Arg.boolean false)
    (setupWindowManager b.windows (setupScene s))

/-- One render loop is running: one frame callback is queued, no timer of `init` is
pending and `initialized` is set. -/
def OneLoop (s : State) : Prop :=
  s.rafQueue = 1 ∧ s.timeouts = 0 ∧ s.initialized = true

/-- The state after a visible `load` event and the timer callback of the `init()` it
triggers. -/
def booted (tz loadMs : Int) (b : BootEnv) : State :=
  run [Event.load Visibility.visible, Event.timeout b] (initial false tz loadMs)

/-! ## Registry order (modelled from the specification) -/

/-- The ids of a sequence of entries, in order. -/
def ids (es : List WindowEntry) : List String :=
  es.map (fun e => e.id)

/-- Modelled from the spec: `WindowManager.js` is not among the sources.  "Re-sort
deterministically", with "order = ascending `id`". -/
def sortById (es : List WindowEntry) : List WindowEntry :=
  es.insertionSort (fun a b => a.id ≤ b.id)

/-- Modelled from the spec: the merge rule of `WindowManager.js`, which is not among the
sources.  "On conflict prefer the entry with the larger `lastSeen`, except the local
surface's own id, which always prefers the local copy." -/
def Registry.resolve (own : String) (existing incoming : WindowEntry) : WindowEntry :=
  if existing.id = own then existing
  else if existing.lastSeen < incoming.lastSeen then incoming
  else existing

/-- Modelled from the spec: the registry of `WindowManager.js`, which is not among the
sources, takes in one entry: "union by id", conflicts resolved by the merge rule, then
"re-sort deterministically". -/
def Registry.addEntry (own : String) (reg : List WindowEntry) (e : WindowEntry) :
    List WindowEntry :=
  let winner :=
    match reg.find? (fun x => decide (x.id = e.id)) with
    | some x => Registry.resolve own x e
    | none => e
  sortById (winner :: reg.filter (fun x => decide (x.id ≠ e.id)))

/-- Modelled from the spec: the registry of `WindowManager.js`, which is not among the
sources, drops the entry of a surface that departed or timed out. -/
def Registry.removeEntry (reg : List WindowEntry) (id : String) : List WindowEntry :=
  reg.filter (fun x => decide (x.id ≠ id))

/-- Modelled from the spec: `getWindows()` of `WindowManager.js`, which is not among the
sources, "returns the current Registry snapshot". -/
def Registry.getWindows (reg : List WindowEntry) : List WindowEntry :=
  reg

/-- Modelled from the spec: the registry of `WindowManager.js`, which is not among the
sources, after the entries `es` have arrived in this order. -/
def Registry.ofArrivals (own : String) (es : List WindowEntry) : List WindowEntry :=
  es.foldl (Registry.addEntry own) []

/-- An entry with the given id, used in examples. -/
def entryWithId (id : String) : WindowEntry :=
  { id := id, shape := ⟨0, 0, 800, 600⟩, metaData := [("foo", "bar")], lastSeen := 0 }

/-! ## Example data -/

/-- A snapshot with one window, used in examples. -/
def demoWindows1 : List WindowEntry :=
  [{ id := "1", shape := ⟨0, 0, 100, 50⟩, metaData := [("foo", "bar")], lastSeen := 0 }]

/-- A snapshot with two windows, used in examples. -/
def demoWindows2 : List WindowEntry :=
  [{ id := "1", shape := ⟨0, 0, 100, 50⟩, metaData := [("foo", "bar")], lastSeen := 0 },
   { id := "3", shape := ⟨200, 100, 80, 60⟩, metaData := [("foo", "bar")], lastSeen := 0 }]

/-- A frame in which the window sits at screen position (10, 20), the manager reports
no shape change and the registry holds one window. -/
def demoFrame : FrameEnv :=
  { now := 1000, screenX := 10, screenY := 20, shapeChange := none, windows := demoWindows1 }

/-- A frame in which the window has been dragged to screen position (30, 40) and the
manager invokes the shape-change callback with the new shape. -/
def demoMovedFrame : FrameEnv :=
  { now := 2000, screenX := 30, screenY := 40,
    shapeChange := some (Arg.object ⟨30, 40, 100, 50⟩), windows := demoWindows1 }

/-- A frame in which the registry has become empty. -/
def demoEmptyFrame : FrameEnv :=
  { now := 3000, screenX := 10, screenY := 20, shapeChange := none, windows := [] }

/-- The answers during the timer callback of `init`, one window being registered. -/
def demoBoot : BootEnv :=
  { windows := demoWindows1, screenX := 10, screenY := 20, frame := demoFrame }

/-- The state one frame after the window has been dragged from (10, 20) to (30, 40):
the target is (-30, -40) and the offset has made its first step, to (-11, -21). -/
def demoDragged : State :=
  (render demoMovedFrame (booted 0 0 demoBoot)).2

/-! ## The loop of `render` -/

theorem renderLoop_outcome (wins : List WindowEntry) (t : ℚ) (pss : List (Nat × ParticleSystem)) :
    ∀ i, (renderLoop wins t i pss).1 = Outcome.completed ↔
      (pss = [] ∨ i + pss.length ≤ wins.length) := by
  induction pss with
  | nil => intro i; simp [renderLoop]
  | cons p rest ih =>
    intro i
    obtain ⟨a, ps⟩ := p
    cases h : wins[i]? with
    | none =>
      have hi : wins.length ≤ i := List.getElem?_eq_none_iff.mp h
      simp only [renderLoop, h, List.length_cons]
      constructor
      · intro hc; cases hc
      · rintro (hc | hc)
        · cases hc
        · omega
    | some win =>
      have hi : i < wins.length := by
        by_contra hc
        rw [List.getElem?_eq_none (by omega)] at h
        cases h
      simp only [renderLoop, h, List.length_cons, ih (i + 1)]
      constructor
      · rintro (hc | hc)
        · right; subst hc; simp; omega
        · right; omega
      · rintro (hc | hc)
        · cases hc
        · right; omega

theorem renderLoop_length (wins : List WindowEntry) (t : ℚ) (pss : List (Nat × ParticleSystem)) :
    ∀ i, (renderLoop wins t i pss).2.length = pss.length := by
  induction pss with
  | nil => intro i; simp [renderLoop]
  | cons p rest ih =>
    intro i
    obtain ⟨a, ps⟩ := p
    cases h : wins[i]? with
    | none => simp [renderLoop, h]
    | some win => simp [renderLoop, h, ih (i + 1)]

theorem renderLoop_addrs (wins : List WindowEntry) (t : ℚ) (pss : List (Nat × ParticleSystem)) :
    ∀ i, (renderLoop wins t i pss).2.map Prod.fst = pss.map Prod.fst := by
  induction pss with
  | nil => intro i; simp [renderLoop]
  | cons p rest ih =>
    intro i
    obtain ⟨a, ps⟩ := p
    cases h : wins[i]? with
    | none => simp [renderLoop, h]
    | some win => simp [renderLoop, h, ih (i + 1)]

theorem renderLoop_getElem? (wins : List WindowEntry) (t : ℚ) (pss : List (Nat × ParticleSystem)) :
    ∀ i j a old win, pss[j]? = some (a, old) → wins[i + j]? = some win →
      (renderLoop wins t i pss).2[j]? = some (a,
        { old with
          position :=
            ⟨old.position.x + (win.shape.x + win.shape.w * (1 / 2) - old.position.x) * falloff,
             old.position.y + (win.shape.y + win.shape.h * (1 / 2) - old.position.y) * falloff⟩
          time := t }) := by
  induction pss with
  | nil => intro i j a old win h; simp at h
  | cons p rest ih =>
    intro i j a old win hp hw
    obtain ⟨a0, ps0⟩ := p
    have hlt : i + j < wins.length := by
      by_contra hc
      rw [List.getElem?_eq_none (by omega)] at hw
      cases hw
    cases j with
    | zero =>
      simp only [List.getElem?_cons_zero, Option.some.injEq, Prod.mk.injEq] at hp
      obtain ⟨rfl, rfl⟩ := hp
      simp only [Nat.add_zero] at hw
      simp [renderLoop, hw]
    | succ j =>
      have h0 : ∃ w0, wins[i]? = some w0 := ⟨wins[i], List.getElem?_eq_getElem (by omega)⟩
      obtain ⟨w0, hw0⟩ := h0
      simp only [List.getElem?_cons_succ] at hp
      have hw1 : wins[i + 1 + j]? = some win := by
        rw [show i + 1 + j = i + (j + 1) by omega]; exact hw
      simp only [renderLoop, hw0, List.getElem?_cons_succ]
      exact ih (i + 1) j a old win hp hw1

/-! ## Effect of each function on the state record -/

theorem offsetOnly_refl (s : State) : OffsetOnly s s :=
  ⟨s.sceneOffsetTarget, s.sceneOffset, s.world.position, rfl⟩

theorem offsetOnly_trans {s r u : State} (h1 : OffsetOnly s r) (h2 : OffsetOnly r u) :
    OffsetOnly s u := by
  obtain ⟨t1, o1, p1, rfl⟩ := h1
  obtain ⟨t2, o2, p2, rfl⟩ := h2
  exact ⟨t2, o2, p2, rfl⟩

theorem updateWindowShape_offsetOnly (x y : ℚ) (a : Arg) (s : State) :
    OffsetOnly s (updateWindowShape x y a s) := by
  unfold updateWindowShape
  split
  · exact ⟨_, _, s.world.position, rfl⟩
  · exact ⟨_, _, s.world.position, rfl⟩

theorem setOffsetX_offsetOnly (s : State) (v : ℚ) : OffsetOnly s (s.setOffsetX v) := by
  unfold State.setOffsetX
  split
  · exact ⟨s.sceneOffsetTarget, _, s.world.position, rfl⟩
  · next h => exact ⟨_, OffsetRef.sameAsTarget, s.world.position, by rw [← h]⟩

theorem setOffsetY_offsetOnly (s : State) (v : ℚ) : OffsetOnly s (s.setOffsetY v) := by
  unfold State.setOffsetY
  split
  · exact ⟨s.sceneOffsetTarget, _, s.world.position, rfl⟩
  · next h => exact ⟨_, OffsetRef.sameAsTarget, s.world.position, by rw [← h]⟩

theorem managerUpdate_offsetOnly (env : FrameEnv) (s : State) :
    OffsetOnly { s with calls := s.calls ++ [Call.managerUpdate] } (managerUpdate env s) := by
  unfold managerUpdate
  cases env.shapeChange with
  | none => exact offsetOnly_refl _
  | some a => exact updateWindowShape_offsetOnly _ _ _ _

theorem easeSceneOffset_offsetOnly (s : State) : OffsetOnly s (easeSceneOffset s) :=
  offsetOnly_trans (setOffsetX_offsetOnly s _) (setOffsetY_offsetOnly _ _)

theorem placeWorld_offsetOnly (s : State) : OffsetOnly s (placeWorld s) :=
  ⟨_, _, _, rfl⟩

theorem renderOffset_offsetOnly (env : FrameEnv) (s : State) :
    OffsetOnly { s with calls := s.calls ++ [Call.managerUpdate] } (renderOffset env s) :=
  offsetOnly_trans (managerUpdate_offsetOnly env s)
    (offsetOnly_trans (easeSceneOffset_offsetOnly _) (placeWorld_offsetOnly _))

theorem foldl_remove_position (pss : List (Nat × ParticleSystem)) :
    ∀ w : World, (pss.foldl (fun (w : World) (ps : Nat × ParticleSystem) => w.remove ps.1) w).position
      = w.position := by
  induction pss with
  | nil => intro w; rfl
  | cons p rest ih => intro w; simp only [List.foldl_cons, ih]; rfl

theorem particlesOnly_refl (s : State) : ParticlesOnly s s :=
  ⟨s.world.children, s.particleSystems, s.nextAddr, rfl⟩

theorem particlesOnly_trans {s r u : State} (h1 : ParticlesOnly s r) (h2 : ParticlesOnly r u) :
    ParticlesOnly s u := by
  obtain ⟨c1, p1, n1, rfl⟩ := h1
  obtain ⟨c2, p2, n2, rfl⟩ := h2
  exact ⟨c2, p2, n2, rfl⟩

theorem addParticleSystems_particlesOnly (wins : List WindowEntry) :
    ∀ i s, ParticlesOnly s (addParticleSystems wins i s) := by
  induction wins with
  | nil => intro i s; exact particlesOnly_refl s
  | cons win rest ih =>
    intro i s
    simp only [addParticleSystems]
    exact particlesOnly_trans ⟨_, _, _, rfl⟩ (ih _ _)

theorem updateParticleSystems_particlesOnly (wins : List WindowEntry) (s : State) :
    ParticlesOnly { s with calls := s.calls ++ [Call.managerGetWindows] }
      (updateParticleSystems wins s) := by
  have h1 : ParticlesOnly { s with calls := s.calls ++ [Call.managerGetWindows] }
      { s with
        calls := s.calls ++ [Call.managerGetWindows]
        world := s.particleSystems.foldl
          (fun (w : World) (ps : Nat × ParticleSystem) => w.remove ps.1) s.world
        particleSystems := [] } := by
    refine ⟨(s.particleSystems.foldl
      (fun (w : World) (ps : Nat × ParticleSystem) => w.remove ps.1) s.world).children,
      [], s.nextAddr, ?_⟩
    simp only [← foldl_remove_position s.particleSystems s.world]
  exact particlesOnly_trans h1 (addParticleSystems_particlesOnly wins 0 _)

/-! ## `render` as a whole -/

theorem render_fst (env : FrameEnv) (s : State) :
    (render env s).1 =
      (renderLoop env.windows (getTime s.today env.now) 0 s.particleSystems).1 := by
  obtain ⟨tgt, off, pos, h⟩ := renderOffset_offsetOnly env s
  unfold render
  rw [h]
  rcases hr : renderLoop env.windows (getTime s.today env.now) 0 s.particleSystems with ⟨o, pss⟩
  cases o <;> simp [hr]

theorem render_particleSystems (env : FrameEnv) (s : State) :
    (render env s).2.particleSystems =
      (renderLoop env.windows (getTime s.today env.now) 0 s.particleSystems).2 := by
  obtain ⟨tgt, off, pos, h⟩ := renderOffset_offsetOnly env s
  unfold render
  rw [h]
  rcases hr : renderLoop env.windows (getTime s.today env.now) 0 s.particleSystems with ⟨o, pss⟩
  cases o <;> simp [hr]

theorem render_calls (env : FrameEnv) (s : State) :
    (render env s).2.calls =
      s.calls ++ [Call.managerUpdate, Call.managerGetWindows] ++
        (if (render env s).1 = Outcome.completed
          then [Call.rendererRender, Call.requestAnimationFrame] else []) := by
  obtain ⟨tgt, off, pos, h⟩ := renderOffset_offsetOnly env s
  unfold render
  rw [h]
  rcases hr : renderLoop env.windows (getTime s.today env.now) 0 s.particleSystems with ⟨o, pss⟩
  cases o <;> simp [hr]

theorem render_rafQueue (env : FrameEnv) (s : State) :
    (render env s).2.rafQueue =
      s.rafQueue + (if (render env s).1 = Outcome.completed then 1 else 0) := by
  obtain ⟨tgt, off, pos, h⟩ := renderOffset_offsetOnly env s
  unfold render
  rw [h]
  rcases hr : renderLoop env.windows (getTime s.today env.now) 0 s.particleSystems with ⟨o, pss⟩
  cases o <;> simp [hr]

/-- The fields of the state that `render` never writes. -/
theorem render_untouched (env : FrameEnv) (s : State) :
    (render env s).2.listening = s.listening ∧ (render env s).2.initialized = s.initialized ∧
    (render env s).2.today = s.today ∧ (render env s).2.timeouts = s.timeouts ∧
    (render env s).2.windowManager = s.windowManager ∧
    (render env s).2.world.children = s.world.children ∧
    (render env s).2.nextAddr = s.nextAddr ∧ (render env s).2.faults = s.faults := by
  obtain ⟨tgt, off, pos, h⟩ := renderOffset_offsetOnly env s
  unfold render
  rw [h]
  rcases hr : renderLoop env.windows (getTime s.today env.now) 0 s.particleSystems with ⟨o, pss⟩
  cases o <;> simp [hr]

theorem render_completed_iff (env : FrameEnv) (s : State) :
    (render env s).1 = Outcome.completed ↔ s.particleSystems.length ≤ env.windows.length := by
  rw [render_fst, renderLoop_outcome]
  constructor
  · rintro (h | h)
    · simp [h]
    · simpa using h
  · intro h; right; simpa using h

/-! ## `updateParticleSystems` -/

theorem addParticleSystems_particleSystems (wins : List WindowEntry) :
    ∀ i s,
      (addParticleSystems wins i s).particleSystems.length
        = s.particleSystems.length + wins.length ∧
      (∀ j, j < s.particleSystems.length →
        (addParticleSystems wins i s).particleSystems[j]? = s.particleSystems[j]?) ∧
      (∀ j win, wins[j]? = some win →
        (addParticleSystems wins i s).particleSystems[s.particleSystems.length + j]? =
          some (s.nextAddr + j,
            createParticleSystem (i + j) (win.shape.x + win.shape.w * (1 / 2))
              (win.shape.y + win.shape.h * (1 / 2)))) := by
  induction wins with
  | nil =>
    intro i s
    refine ⟨rfl, fun j _ => rfl, ?_⟩
    intro j win h
    simp at h
  | cons w rest ih =>
    intro i s
    obtain ⟨hl, ho, hn⟩ := ih (i + 1)
      { s with
        nextAddr := s.nextAddr + 1
        world := s.world.add s.nextAddr
        particleSystems := s.particleSystems ++
          [(s.nextAddr, createParticleSystem i (w.shape.x + w.shape.w * (1 / 2))
            (w.shape.y + w.shape.h * (1 / 2)))] }
    simp only [List.length_append, List.length_singleton] at hl ho hn
    refine ⟨?_, ?_, ?_⟩
    · simp only [addParticleSystems, hl, List.length_cons]; omega
    · intro j hj
      simp only [addParticleSystems]
      rw [ho j (by omega), List.getElem?_append_left hj]
    · intro j win hw
      simp only [addParticleSystems]
      cases j with
      | zero =>
        simp only [List.getElem?_cons_zero, Option.some.injEq] at hw
        subst hw
        rw [Nat.add_zero, ho _ (by omega)]
        simp
      | succ j =>
        simp only [List.getElem?_cons_succ] at hw
        have := hn j win hw
        rw [show s.particleSystems.length + (j + 1) = s.particleSystems.length + 1 + j by omega,
          this]
        simp only [Option.some.injEq, Prod.mk.injEq]
        exact ⟨by omega, by rw [show i + 1 + j = i + (j + 1) by omega]⟩

theorem addParticleSystems_children (wins : List WindowEntry) :
    ∀ i s, (∀ c ∈ s.world.children, c < s.nextAddr) →
      (addParticleSystems wins i s).world.children
        = s.world.children ++ List.range' s.nextAddr wins.length := by
  induction wins with
  | nil => intro i s _; simp [addParticleSystems]
  | cons w rest ih =>
    intro i s hs
    have hfresh : s.nextAddr ∉ s.world.children := fun hc => Nat.lt_irrefl _ (hs _ hc)
    simp only [addParticleSystems]
    rw [ih]
    · simp [World.add, List.erase_of_not_mem hfresh, List.range'_succ]
    · intro c hc
      simp only [World.add, List.erase_of_not_mem hfresh, List.mem_append,
        List.mem_singleton] at hc
      rcases hc with hc | hc
      · exact Nat.lt_succ_of_lt (hs c hc)
      · subst hc; exact Nat.lt_succ_self _

theorem foldl_remove_children (pss : List (Nat × ParticleSystem)) :
    ∀ w : World, w.children.Nodup →
      (pss.foldl (fun (w : World) (ps : Nat × ParticleSystem) => w.remove ps.1) w).children
        = w.children.filter (fun c => decide (c ∉ pss.map Prod.fst)) := by
  induction pss with
  | nil => intro w _; simp
  | cons p rest ih =>
    intro w hw
    simp only [List.foldl_cons]
    rw [ih _ (by simpa [World.remove] using hw.erase p.1)]
    simp only [World.remove, hw.erase_eq_filter, List.filter_filter, List.map_cons,
      List.mem_cons, not_or]
    congr 1
    funext c
    by_cases h1 : c = p.1 <;> by_cases h2 : c ∈ List.map Prod.fst rest <;> simp [h1, h2]

theorem updateParticleSystems_children (wins : List WindowEntry) (s : State)
    (hnodup : s.world.children.Nodup) (hworld : ∀ c ∈ s.world.children, c < s.nextAddr) :
    (updateParticleSystems wins s).world.children =
      s.world.children.filter (fun c => decide (c ∉ s.particleSystems.map Prod.fst))
        ++ List.range' s.nextAddr wins.length := by
  unfold updateParticleSystems
  simp only []
  rw [addParticleSystems_children]
  · simp only [foldl_remove_children s.particleSystems s.world hnodup]
  · intro c hc
    simp only [foldl_remove_children s.particleSystems s.world hnodup] at hc
    exact hworld c (List.mem_of_mem_filter hc)

theorem updateParticleSystems_getElem? (wins : List WindowEntry) (s : State) (i : Nat)
    (win : WindowEntry) (h : wins[i]? = some win) :
    (updateParticleSystems wins s).particleSystems[i]? =
      some (s.nextAddr + i,
        createParticleSystem i (win.shape.x + win.shape.w * (1 / 2))
          (win.shape.y + win.shape.h * (1 / 2))) := by
  unfold updateParticleSystems
  have := (addParticleSystems_particleSystems wins 0
    { s with
      calls := s.calls ++ [Call.managerGetWindows]
      world := s.particleSystems.foldl
        (fun (w : World) (ps : Nat × ParticleSystem) => w.remove ps.1) s.world
      particleSystems := [] }).2.2 i win h
  simpa using this

theorem updateParticleSystems_length (wins : List WindowEntry) (s : State) :
    (updateParticleSystems wins s).particleSystems.length = wins.length := by
  unfold updateParticleSystems
  have := (addParticleSystems_particleSystems wins 0
    { s with
      calls := s.calls ++ [Call.managerGetWindows]
      world := s.particleSystems.foldl
        (fun (w : World) (ps : Nat × ParticleSystem) => w.remove ps.1) s.world
      particleSystems := [] }).1
  simpa using this

theorem updateParticleSystems_addrs (wins : List WindowEntry) (s : State) :
    (updateParticleSystems wins s).particleSystems.map Prod.fst
      = List.range' s.nextAddr wins.length := by
  apply List.ext_getElem?
  intro n
  by_cases hn : n < wins.length
  · have hw : wins[n]? = some wins[n] := List.getElem?_eq_getElem hn
    rw [List.getElem?_map, updateParticleSystems_getElem? wins s n _ hw]
    simp [List.getElem?_range', hn]
  · rw [List.getElem?_eq_none (by simp [updateParticleSystems_length]; omega),
      List.getElem?_eq_none (by simp; omega)]

/-! ## Easing of the scene offset -/

theorem managerUpdate_holds (env : FrameEnv) (s : State) (T : Vec2)
    (hT : s.sceneOffsetTarget = T) (h : env.holdsTarget T) :
    (managerUpdate env s).sceneOffsetTarget = T ∧ (managerUpdate env s).offset = s.offset := by
  unfold FrameEnv.holdsTarget at h
  unfold managerUpdate
  cases hs : env.shapeChange with
  | none => exact ⟨hT, rfl⟩
  | some a =>
    rw [hs] at h
    obtain ⟨ha, hx, hy⟩ := h
    have hd : a.orDefaultTrue.truthy = true := by
      rcases ha with rfl | ha
      · rfl
      · cases a <;> simp_all [Arg.orDefaultTrue, Arg.truthy]
    have heq : updateWindowShape env.screenX env.screenY a
        { s with calls := s.calls ++ [Call.managerUpdate] } =
        { s with calls := s.calls ++ [Call.managerUpdate],
                 sceneOffsetTarget := ⟨-env.screenX, -env.screenY⟩,
                 sceneOffset := OffsetRef.own s.offset } := by
      unfold updateWindowShape
      simp only [hd, Bool.true_eq_false, if_false]
      rfl
    simp only []
    rw [heq]
    refine ⟨?_, rfl⟩
    show (⟨-env.screenX, -env.screenY⟩ : Vec2) = T
    rw [hx, hy]

theorem easeSceneOffset_spec (s : State) :
    (easeSceneOffset s).sceneOffsetTarget = s.sceneOffsetTarget ∧
    (easeSceneOffset s).offset =
      ⟨s.offset.x + (s.sceneOffsetTarget.x - s.offset.x) * falloff,
       s.offset.y + (s.sceneOffsetTarget.y - s.offset.y) * falloff⟩ := by
  unfold easeSceneOffset
  cases hs : s.sceneOffset with
  | own o =>
    simp [State.setOffsetX, State.setOffsetY, State.offset, hs]
  | sameAsTarget =>
    simp [State.setOffsetX, State.setOffsetY, State.offset, hs]

theorem renderOffset_eases (env : FrameEnv) (s : State) (T : Vec2)
    (hT : s.sceneOffsetTarget = T) (h : env.holdsTarget T) :
    (renderOffset env s).sceneOffsetTarget = T ∧
    (renderOffset env s).offset =
      ⟨s.offset.x + (T.x - s.offset.x) * falloff, s.offset.y + (T.y - s.offset.y) * falloff⟩ ∧
    (renderOffset env s).world.position = (renderOffset env s).offset := by
  obtain ⟨h1, h2⟩ := managerUpdate_holds env s T hT h
  obtain ⟨h3, h4⟩ := easeSceneOffset_spec (managerUpdate env s)
  rw [h1, h2] at h4
  rw [h1] at h3
  have hp : ∀ u : State, (placeWorld u).sceneOffsetTarget = u.sceneOffsetTarget ∧
      (placeWorld u).offset = u.offset ∧ (placeWorld u).world.position = u.offset :=
    fun u => ⟨rfl, rfl, rfl⟩
  unfold renderOffset
  obtain ⟨p1, p2, p3⟩ := hp (easeSceneOffset (managerUpdate env s))
  rw [p1, p2, p3, h3, h4]
  exact ⟨rfl, rfl, rfl⟩

theorem render_offsets (env : FrameEnv) (s : State) :
    (render env s).2.sceneOffsetTarget = (renderOffset env s).sceneOffsetTarget ∧
    (render env s).2.offset = (renderOffset env s).offset ∧
    (render env s).2.world.position = (renderOffset env s).world.position := by
  unfold render
  simp only []
  split <;> exact ⟨rfl, rfl, rfl⟩

theorem render_eases (env : FrameEnv) (s : State) (T : Vec2)
    (hT : s.sceneOffsetTarget = T) (h : env.holdsTarget T) :
    (render env s).2.sceneOffsetTarget = T ∧
    (render env s).2.offset =
      ⟨s.offset.x + (T.x - s.offset.x) * falloff, s.offset.y + (T.y - s.offset.y) * falloff⟩ ∧
    (render env s).2.world.position = (render env s).2.offset := by
  obtain ⟨r1, r2, r3⟩ := render_offsets env s
  obtain ⟨e1, e2, e3⟩ := renderOffset_eases env s T hT h
  rw [r1, r2, r3, e1, e2, e3]
  exact ⟨rfl, rfl, e2⟩

theorem renders_eases (T : Vec2) (envs : List FrameEnv) :
    ∀ s : State, s.sceneOffsetTarget = T → (∀ env ∈ envs, env.holdsTarget T) →
      (renders envs s).sceneOffsetTarget = T ∧
      T.x - (renders envs s).offset.x = (19 / 20 : ℚ) ^ envs.length * (T.x - s.offset.x) ∧
      T.y - (renders envs s).offset.y = (19 / 20 : ℚ) ^ envs.length * (T.y - s.offset.y) ∧
      (envs ≠ [] → (renders envs s).world.position = (renders envs s).offset) := by
  induction envs using List.reverseRecOn with
  | nil => intro s hT _; simp [renders, hT]
  | append_singleton envs env ih =>
    intro s hT hh
    obtain ⟨i1, i2, i3, _⟩ := ih s hT (fun e he => hh e (List.mem_append_left _ he))
    obtain ⟨e1, e2, e3⟩ := render_eases env (renders envs s) T i1
      (hh env (List.mem_append_right _ (List.mem_singleton_self env)))
    have hr : renders (envs ++ [env]) s = (render env (renders envs s)).2 := by
      simp [renders, List.foldl_append]
    rw [hr]
    refine ⟨e1, ?_, ?_, fun _ => e3⟩
    · rw [e2, List.length_append, List.length_singleton, pow_succ]
      simp only [falloff]
      linear_combination (19 / 20 : ℚ) * i2
    · rw [e2, List.length_append, List.length_singleton, pow_succ]
      simp only [falloff]
      linear_combination (19 / 20 : ℚ) * i3

/-! ## Control state along a run -/

theorem renderCallback_eq (env : FrameEnv) (s : State) :
    renderCallback env s =
      if (render env s).1 = Outcome.completed then (render env s).2
      else { (render env s).2 with faults := (render env s).2.faults + 1 } := by
  unfold renderCallback
  rcases hr : render env s with ⟨o, s1⟩
  cases o <;> simp

theorem renderCallback_faults (env : FrameEnv) (s : State) :
    (renderCallback env s).faults =
      s.faults + (if (render env s).1 = Outcome.completed then 0 else 1) := by
  rw [renderCallback_eq]
  split
  · rw [(render_untouched env s).2.2.2.2.2.2.2, Nat.add_zero]
  · show (render env s).2.faults + 1 = _
    rw [(render_untouched env s).2.2.2.2.2.2.2]

theorem renderCallback_calls (env : FrameEnv) (s : State) :
    (renderCallback env s).calls = (render env s).2.calls := by
  rw [renderCallback_eq]; split <;> rfl

theorem renderCallback_rafQueue (env : FrameEnv) (s : State) :
    (renderCallback env s).rafQueue = (render env s).2.rafQueue := by
  rw [renderCallback_eq]; split <;> rfl

theorem renderCallback_control (env : FrameEnv) (s : State) :
    (renderCallback env s).timeouts = s.timeouts ∧
    (renderCallback env s).initialized = s.initialized := by
  obtain ⟨_, h2, _, h4, _⟩ := render_untouched env s
  rw [renderCallback_eq]; split
  · exact ⟨h4, h2⟩
  · exact ⟨h4, h2⟩

theorem iterate_renderCallback_faults (env : FrameEnv) (n : Nat) :
    ∀ s, s.faults ≤ ((renderCallback env)^[n] s).faults := by
  induction n with
  | zero => intro s; exact Nat.le_refl _
  | succ n ih =>
    intro s
    rw [Function.iterate_succ_apply]
    refine Nat.le_trans ?_ (ih _)
    rw [renderCallback_faults]
    exact Nat.le_add_right _ _

theorem windowsUpdated_control (wins : List WindowEntry) (s : State) :
    (windowsUpdated wins s).calls
      = s.calls ++ [Call.windowsUpdated, Call.managerGetWindows] ∧
    (windowsUpdated wins s).rafQueue = s.rafQueue ∧
    (windowsUpdated wins s).timeouts = s.timeouts ∧
    (windowsUpdated wins s).initialized = s.initialized ∧
    (windowsUpdated wins s).faults = s.faults := by
  unfold windowsUpdated
  obtain ⟨ch, pss, n, h⟩ := updateParticleSystems_particlesOnly wins
    { s with calls := s.calls ++ [Call.windowsUpdated] }
  rw [h]
  simp

theorem updateWindowShape_control (x y : ℚ) (a : Arg) (s : State) :
    (updateWindowShape x y a s).calls = s.calls ∧
    (updateWindowShape x y a s).rafQueue = s.rafQueue ∧
    (updateWindowShape x y a s).timeouts = s.timeouts ∧
    (updateWindowShape x y a s).initialized = s.initialized ∧
    (updateWindowShape x y a s).faults = s.faults := by
  obtain ⟨t, o, p, h⟩ := updateWindowShape_offsetOnly x y a s
  rw [h]
  simp

theorem bootstrap_eq (b : BootEnv) (s : State) :
    bootstrap b s = renderCallback b.frame (beforeFirstRender b s) := rfl

theorem beforeFirstRender_control (b : BootEnv) (s : State) :
    (beforeFirstRender b s).calls
      = s.calls ++ [Call.managerInit, Call.windowsUpdated, Call.managerGetWindows] ∧
    (beforeFirstRender b s).rafQueue = s.rafQueue ∧
    (beforeFirstRender b s).timeouts = s.timeouts ∧
    (beforeFirstRender b s).initialized = s.initialized ∧
    (beforeFirstRender b s).faults = s.faults := by
  unfold beforeFirstRender setupWindowManager setupScene
  obtain ⟨u1, u2, u3, u4, u5⟩ := updateWindowShape_control b.screenX b.screenY
    (Arg.boolean false) (windowsUpdated b.windows
      { s with world := ⟨[], ⟨0, 0⟩⟩, windowManager := true,
               calls := s.calls ++ [Call.managerInit] })
  obtain ⟨w1, w2, w3, w4, w5⟩ := windowsUpdated_control b.windows
      { s with world := ⟨[], ⟨0, 0⟩⟩, windowManager := true,
               calls := s.calls ++ [Call.managerInit] }
  simp only [] at u1 u2 u3 u4 u5 w1 w2 w3 w4 w5 ⊢
  rw [u1, u2, u3, u4, u5, w1, w2, w3, w4, w5]
  simp

theorem step_faults_mono (s : State) (e : Event) : s.faults ≤ (step s e).faults := by
  cases e with
  | load v =>
    simp only [step, onLoad, init]
    split <;> [split; skip] <;> exact Nat.le_refl _
  | visibilitychange v =>
    simp only [step, onVisibilityChange, init]
    split <;> [split; skip] <;> exact Nat.le_refl _
  | timeout b =>
    simp only [step]
    split
    · exact Nat.le_refl _
    · rw [bootstrap_eq, renderCallback_faults, (beforeFirstRender_control b _).2.2.2.2]
      exact Nat.le_add_right _ _
  | animationFrame env =>
    exact iterate_renderCallback_faults env s.rafQueue { s with rafQueue := 0 }
  | windowChange wins =>
    simp only [step]
    split
    · rw [(windowsUpdated_control wins s).2.2.2.2]
    · exact Nat.le_refl _
  | resize => exact Nat.le_refl _

theorem run_faults_mono (es : List Event) : ∀ s, s.faults ≤ (run es s).faults := by
  induction es with
  | nil => intro s; exact Nat.le_refl _
  | cons e es ih =>
    intro s
    exact Nat.le_trans (step_faults_mono s e) (ih (step s e))

theorem step_oneLoop (s : State) (e : Event) (hs : OneLoop s) (he : e.isLoad = false)
    (hf : (step s e).faults = s.faults) :
    OneLoop (step s e) ∧
    (step s e).calls.count Call.managerUpdate =
      s.calls.count Call.managerUpdate + (if e.isFrame then 1 else 0) ∧
    (step s e).calls.count Call.init = s.calls.count Call.init := by
  obtain ⟨hq, ht, hi⟩ := hs
  cases e with
  | load v => simp [Event.isLoad] at he
  | visibilitychange v =>
    have : step s (Event.visibilitychange v) = s := by
      simp [step, onVisibilityChange, hi]
    rw [this]
    exact ⟨⟨hq, ht, hi⟩, by simp [Event.isFrame], rfl⟩
  | timeout b =>
    have : step s (Event.timeout b) = s := by simp [step, ht]
    rw [this]
    exact ⟨⟨hq, ht, hi⟩, by simp [Event.isFrame], rfl⟩
  | animationFrame env =>
    have hstep : step s (Event.animationFrame env)
        = renderCallback env { s with rafQueue := 0 } := by
      simp [step, animationFrame, hq]
    rw [hstep] at hf ⊢
    rw [renderCallback_faults] at hf
    have hc : (render env { s with rafQueue := 0 }).1 = Outcome.completed := by
      by_contra hc
      rw [if_neg hc] at hf
      simp at hf
    obtain ⟨c1, c2⟩ := renderCallback_control env { s with rafQueue := 0 }
    refine ⟨⟨?_, by rw [c1]; exact ht, by rw [c2]; exact hi⟩, ?_, ?_⟩
    · rw [renderCallback_rafQueue, render_rafQueue, if_pos hc]
    · rw [renderCallback_calls, render_calls, if_pos hc]
      simp [Event.isFrame]
    · rw [renderCallback_calls, render_calls, if_pos hc]
      simp
  | windowChange wins =>
    obtain ⟨w1, w2, w3, w4, _⟩ := windowsUpdated_control wins s
    simp only [step]
    split
    · refine ⟨⟨by rw [w2]; exact hq, by rw [w3]; exact ht, by rw [w4]; exact hi⟩, ?_, ?_⟩
      · rw [w1]
        simp [Event.isFrame]
      · rw [w1]
        simp
    · exact ⟨⟨hq, ht, hi⟩, by simp [Event.isFrame], rfl⟩
  | resize => exact ⟨⟨hq, ht, hi⟩, by simp [step, Event.isFrame], rfl⟩

theorem run_oneLoop (es : List Event) :
    ∀ s, OneLoop s → (∀ e ∈ es, e.isLoad = false) → (run es s).faults = s.faults →
      OneLoop (run es s) ∧
      (run es s).calls.count Call.managerUpdate =
        s.calls.count Call.managerUpdate + es.countP Event.isFrame ∧
      (run es s).calls.count Call.init = s.calls.count Call.init := by
  induction es with
  | nil => intro s hs _ _; exact ⟨hs, by simp [run], rfl⟩
  | cons e es ih =>
    intro s hs hl hf
    have hrun : run (e :: es) s = run es (step s e) := rfl
    rw [hrun] at hf ⊢
    have h1 : (step s e).faults = s.faults :=
      Nat.le_antisymm (hf ▸ run_faults_mono es (step s e)) (step_faults_mono s e)
    obtain ⟨o1, k1, j1⟩ := step_oneLoop s e hs (hl e (List.mem_cons_self e es)) h1
    obtain ⟨o2, k2, j2⟩ := ih (step s e) o1 (fun x hx => hl x (List.mem_cons_of_mem e hx))
      (by rw [hf, h1])
    refine ⟨o2, ?_, by rw [j2, j1]⟩
    rw [k2, k1, List.countP_cons]
    omega

theorem booted_eq (tz loadMs : Int) (b : BootEnv) :
    booted tz loadMs b = bootstrap b
      { initial false tz loadMs with initialized := true, calls := [Call.init] } := by
  simp [booted, run, step, initial, onLoad, init]

theorem bootstrap_control (b : BootEnv) (s : State) :
    (bootstrap b s).calls.count Call.managerInit = s.calls.count Call.managerInit + 1 ∧
    (bootstrap b s).timeouts = s.timeouts := by
  obtain ⟨p1, _, p3, _, _⟩ := beforeFirstRender_control b s
  obtain ⟨c1, _⟩ := renderCallback_control b.frame (beforeFirstRender b s)
  rw [bootstrap_eq, renderCallback_calls, render_calls, c1, p1, p3]
  refine ⟨?_, rfl⟩
  split <;> simp

/-! ## Clock -/

/-- While the clock is still in the local day in which the module was evaluated,
`getTime()` is the number of seconds since local midnight. -/
theorem getTime_eq_secondsSinceStartOfDay_of_same_day (tz loadMs nowMs : Int)
    (h : (loadMs + tz) / msPerDay = (nowMs + tz) / msPerDay) :
    getTime (today tz loadMs) nowMs = secondsSinceStartOfDay tz nowMs := by
  unfold getTime secondsSinceStartOfDay today
  congr 2
  have h1 := Int.emod_add_ediv (loadMs + tz) msPerDay
  have h2 := Int.emod_add_ediv (nowMs + tz) msPerDay
  rw [h] at h1
  omega

/-! ## Registry order -/

theorem ids_sortById_sorted (es : List WindowEntry) : (ids (sortById es)).Sorted (· ≤ ·) := by
  haveI : IsTotal WindowEntry (fun a b => a.id ≤ b.id) := ⟨fun a b => le_total a.id b.id⟩
  haveI : IsTrans WindowEntry (fun a b => a.id ≤ b.id) := ⟨fun _ _ _ h1 h2 => le_trans h1 h2⟩
  unfold ids sortById
  rw [List.Sorted, List.pairwise_map]
  exact List.sorted_insertionSort (fun a b : WindowEntry => a.id ≤ b.id) es

theorem ids_sortById_perm (es : List WindowEntry) : (ids (sortById es)).Perm (ids es) :=
  (List.perm_insertionSort _ es).map _

theorem eq_sort_of_sorted_nodup (l : List String) (hs : l.Sorted (· ≤ ·)) (hn : l.Nodup) :
    l = Finset.sort (· ≤ ·) l.toFinset :=
  ((List.toFinset_sort (· ≤ ·) hn).mpr hs).symm

theorem resolve_id (own : String) (x e : WindowEntry) (h : x.id = e.id) :
    (Registry.resolve own x e).id = e.id := by
  unfold Registry.resolve
  split
  · exact h
  · split
    · rfl
    · exact h

theorem addEntry_ids_perm (own : String) (reg : List WindowEntry) (e : WindowEntry) :
    (ids (Registry.addEntry own reg e)).Perm
      (e.id :: (ids reg).filter (fun i => decide (i ≠ e.id))) := by
  unfold Registry.addEntry
  refine (ids_sortById_perm _).trans ?_
  have hw : (match reg.find? (fun x : WindowEntry => decide (x.id = e.id)) with
      | some x => Registry.resolve own x e
      | none => e).id = e.id := by
    cases hf : reg.find? (fun x => decide (x.id = e.id)) with
    | none => rfl
    | some x =>
      have := List.find?_some hf
      exact resolve_id own x e (by simpa using this)
  refine List.Perm.of_eq ?_
  simp only [ids, List.map_cons, List.filter_map]
  rw [hw]
  rfl

theorem addEntry_wf (own : String) (reg : List WindowEntry) (e : WindowEntry)
    (hn : (ids reg).Nodup) :
    (ids (Registry.addEntry own reg e)).Sorted (· ≤ ·) ∧
    (ids (Registry.addEntry own reg e)).Nodup ∧
    (ids (Registry.addEntry own reg e)).toFinset = insert e.id (ids reg).toFinset := by
  have hp := addEntry_ids_perm own reg e
  refine ⟨ids_sortById_sorted _, hp.nodup_iff.mpr ?_, ?_⟩
  · rw [List.nodup_cons]
    refine ⟨?_, hn.filter _⟩
    intro hmem
    have := (List.mem_filter.mp hmem).2
    simp at this
  · rw [List.toFinset_eq_of_perm _ _ hp]
    ext i
    simp only [List.toFinset_cons, Finset.mem_insert, List.mem_toFinset, List.mem_filter,
      decide_eq_true_eq]
    by_cases h : i = e.id <;> simp [h]

theorem ofArrivals_wf (own : String) (es : List WindowEntry) :
    (ids (Registry.ofArrivals own es)).Sorted (· ≤ ·) ∧
    (ids (Registry.ofArrivals own es)).Nodup ∧
    (ids (Registry.ofArrivals own es)).toFinset = (ids es).toFinset := by
  induction es using List.reverseRecOn with
  | nil => simp [Registry.ofArrivals, ids]
  | append_singleton es e ih =>
    obtain ⟨_, hn, hset⟩ := ih
    have hstep : Registry.ofArrivals own (es ++ [e])
        = Registry.addEntry own (Registry.ofArrivals own es) e := by
      simp [Registry.ofArrivals, List.foldl_append]
    obtain ⟨a1, a2, a3⟩ := addEntry_wf own (Registry.ofArrivals own es) e hn
    rw [hstep]
    refine ⟨a1, a2, ?_⟩
    rw [a3, hset]
    ext i
    simp only [ids, List.map_append, List.map_cons, List.map_nil, List.toFinset_append,
      List.toFinset_cons, List.toFinset_nil, Finset.mem_insert, Finset.mem_union,
      List.mem_toFinset, insert_emptyc_eq, Finset.mem_singleton]
    tauto

theorem ofArrivals_ids (own : String) (es : List WindowEntry) :
    ids (Registry.ofArrivals own es) = Finset.sort (· ≤ ·) (ids es).toFinset := by
  obtain ⟨h1, h2, h3⟩ := ofArrivals_wf own es
  rw [← h3]
  exact eq_sort_of_sorted_nodup _ h1 h2

theorem removeEntry_ids (own : String) (es : List WindowEntry) (i : String) :
    ids (Registry.removeEntry (Registry.ofArrivals own es) i)
      = Finset.sort (· ≤ ·) ((ids es).toFinset.erase i) := by
  obtain ⟨h1, h2, h3⟩ := ofArrivals_wf own es
  have hids : ids (Registry.removeEntry (Registry.ofArrivals own es) i)
      = (ids (Registry.ofArrivals own es)).filter (fun j => decide (j ≠ i)) := by
    simp only [ids, Registry.removeEntry, List.filter_map]
    rfl
  have hset : ((ids (Registry.ofArrivals own es)).filter
      (fun j => decide (j ≠ i))).toFinset = (ids es).toFinset.erase i := by
    rw [← h3]
    ext j
    simp only [List.mem_toFinset, List.mem_filter, decide_eq_true_eq, Finset.mem_erase]
    tauto
  rw [hids, ← hset]
  exact eq_sort_of_sorted_nodup _ (h1.filter _) (h2.filter _)

theorem sorted_135 : (["1", "3", "5"] : List String).Sorted (· ≤ ·) := by
  have h13 : ("1" : String) ≤ "3" := String.le_iff_toList_le.mpr (by decide)
  have h15 : ("1" : String) ≤ "5" := String.le_iff_toList_le.mpr (by decide)
  have h35 : ("3" : String) ≤ "5" := String.le_iff_toList_le.mpr (by decide)
  refine List.Pairwise.cons ?_ (List.Pairwise.cons ?_ (List.Pairwise.cons ?_ List.Pairwise.nil))
  · intro a ha
    simp only [List.mem_cons, List.mem_singleton, List.not_mem_nil, or_false] at ha
    rcases ha with rfl | rfl
    · exact h13
    · exact h15
  · intro a ha
    simp only [List.mem_singleton] at ha
    subst ha
    exact h35
  · intro a ha
    cases ha

theorem sorted_15 : (["1", "5"] : List String).Sorted (· ≤ ·) := by
  have h15 : ("1" : String) ≤ "5" := String.le_iff_toList_le.mpr (by decide)
  refine List.Pairwise.cons ?_ (List.Pairwise.cons ?_ List.Pairwise.nil)
  · intro a ha
    simp only [List.mem_singleton] at ha
    subst ha
    exact h15
  · intro a ha
    cases ha

theorem ids_example (own : String) (first : List WindowEntry)
    (h : (ids first).toFinset = {"1", "3"}) :
    ids (Registry.getWindows
      (Registry.addEntry own (Registry.ofArrivals own first) (entryWithId "5")))
        = ["1", "3", "5"] ∧
    ids (Registry.getWindows (Registry.removeEntry
      (Registry.addEntry own (Registry.ofArrivals own first) (entryWithId "5")) "3"))
        = ["1", "5"] := by
  have hstep : Registry.addEntry own (Registry.ofArrivals own first) (entryWithId "5")
      = Registry.ofArrivals own (first ++ [entryWithId "5"]) := by
    simp [Registry.ofArrivals, List.foldl_append]
  have hset : (ids (first ++ [entryWithId "5"])).toFinset = {"1", "3", "5"} := by
    simp only [ids, List.map_append, List.toFinset_append] at h ⊢
    rw [h]
    ext i
    simp [entryWithId]
  have h1 : (["1", "3", "5"] : List String).toFinset = {"1", "3", "5"} := by
    ext i; simp
  have h2 : (["1", "5"] : List String).toFinset = ({"1", "3", "5"} : Finset String).erase "3" := by
    ext i
    simp only [List.toFinset_cons, List.toFinset_nil, insert_emptyc_eq, Finset.mem_insert,
      Finset.mem_singleton, Finset.mem_erase]
    constructor
    · rintro (rfl | rfl)
      · exact ⟨by decide, Or.inl rfl⟩
      · exact ⟨by decide, Or.inr (Or.inr rfl)⟩
    · rintro ⟨hne, rfl | rfl | rfl⟩
      · exact Or.inl rfl
      · exact absurd rfl hne
      · exact Or.inr rfl
  unfold Registry.getWindows
  rw [hstep, ofArrivals_ids, removeEntry_ids, hset]
  refine ⟨?_, ?_⟩
  · rw [← h1]
    exact (eq_sort_of_sorted_nodup _ sorted_135 (by decide)).symm
  · rw [← h2]
    exact (eq_sort_of_sorted_nodup _ sorted_15 (by decide)).symm

/-! ## Freshness of addresses along a run -/

theorem addressesFresh_congr {s r : State} (h1 : r.world.children = s.world.children)
    (h2 : r.nextAddr = s.nextAddr)
    (h3 : r.particleSystems.map Prod.fst = s.particleSystems.map Prod.fst)
    (h : AddressesFresh s) : AddressesFresh r := by
  unfold AddressesFresh
  rw [h1, h2, h3]
  exact h

theorem addParticleSystems_nextAddr (wins : List WindowEntry) :
    ∀ i s, (addParticleSystems wins i s).nextAddr = s.nextAddr + wins.length := by
  induction wins with
  | nil => intro i s; rfl
  | cons w rest ih =>
    intro i s
    simp only [addParticleSystems, ih, List.length_cons]
    omega

theorem updateParticleSystems_nextAddr (wins : List WindowEntry) (s : State) :
    (updateParticleSystems wins s).nextAddr = s.nextAddr + wins.length := by
  unfold updateParticleSystems
  rw [addParticleSystems_nextAddr]

theorem updateParticleSystems_addressesFresh (wins : List WindowEntry) (s : State)
    (h : AddressesFresh s) : AddressesFresh (updateParticleSystems wins s) := by
  obtain ⟨hn, hw, _⟩ := h
  unfold AddressesFresh
  rw [updateParticleSystems_children wins s hn hw, updateParticleSystems_nextAddr,
    updateParticleSystems_addrs]
  refine ⟨?_, ?_, ?_⟩
  · refine List.Nodup.append (hn.filter _) (List.nodup_range' _ _) ?_
    intro a ha hb
    have h1 := hw a (List.mem_of_mem_filter ha)
    have h2 := (List.mem_range'_1.mp hb).1
    omega
  · intro c hc
    rcases List.mem_append.mp hc with hc | hc
    · have := hw c (List.mem_of_mem_filter hc); omega
    · exact (List.mem_range'_1.mp hc).2
  · intro a ha
    exact (List.mem_range'_1.mp ha).2

theorem windowsUpdated_addressesFresh (wins : List WindowEntry) (s : State)
    (h : AddressesFresh s) : AddressesFresh (windowsUpdated wins s) :=
  updateParticleSystems_addressesFresh wins _ h

theorem updateWindowShape_addressesFresh (x y : ℚ) (a : Arg) (s : State)
    (h : AddressesFresh s) : AddressesFresh (updateWindowShape x y a s) := by
  obtain ⟨t, o, p, heq⟩ := updateWindowShape_offsetOnly x y a s
  rw [heq]
  exact h

theorem renderCallback_addressesFresh (env : FrameEnv) (s : State)
    (h : AddressesFresh s) : AddressesFresh (renderCallback env s) := by
  obtain ⟨_, _, _, _, _, hc, hn, _⟩ := render_untouched env s
  have hp : (render env s).2.particleSystems.map Prod.fst = s.particleSystems.map Prod.fst := by
    rw [render_particleSystems, renderLoop_addrs]
  rw [renderCallback_eq]
  split
  · exact addressesFresh_congr hc hn hp h
  · exact addressesFresh_congr hc hn hp h

theorem iterate_renderCallback_addressesFresh (env : FrameEnv) (n : Nat) :
    ∀ s, AddressesFresh s → AddressesFresh ((renderCallback env)^[n] s) := by
  induction n with
  | zero => intro s h; exact h
  | succ n ih =>
    intro s h
    rw [Function.iterate_succ_apply]
    exact ih _ (renderCallback_addressesFresh env s h)

theorem setupScene_addressesFresh (s : State) (h : AddressesFresh s) :
    AddressesFresh (setupScene s) := by
  unfold AddressesFresh setupScene
  exact ⟨List.nodup_nil, fun c hc => absurd hc (List.not_mem_nil c), h.2.2⟩

theorem setupWindowManager_addressesFresh (wins : List WindowEntry) (s : State)
    (h : AddressesFresh s) : AddressesFresh (setupWindowManager wins s) := by
  unfold setupWindowManager
  exact windowsUpdated_addressesFresh wins _ h

theorem beforeFirstRender_addressesFresh (b : BootEnv) (s : State) (h : AddressesFresh s) :
    AddressesFresh (beforeFirstRender b s) := by
  unfold beforeFirstRender
  exact updateWindowShape_addressesFresh _ _ _ _
    (setupWindowManager_addressesFresh _ _ (setupScene_addressesFresh s h))

theorem step_addressesFresh (s : State) (e : Event) (h : AddressesFresh s) :
    AddressesFresh (step s e) := by
  cases e with
  | load v =>
    simp only [step, onLoad, init]
    split <;> [split; skip] <;> exact h
  | visibilitychange v =>
    simp only [step, onVisibilityChange, init]
    split <;> [split; skip] <;> exact h
  | timeout b =>
    simp only [step]
    split
    · exact h
    · rw [bootstrap_eq]
      exact renderCallback_addressesFresh _ _ (beforeFirstRender_addressesFresh b _ h)
  | animationFrame env =>
    exact iterate_renderCallback_addressesFresh env s.rafQueue { s with rafQueue := 0 } h
  | windowChange wins =>
    simp only [step]
    split
    · exact windowsUpdated_addressesFresh wins s h
    · exact h
  | resize => exact h

/-- Every state the page can reach has fresh addresses. -/
theorem run_addressesFresh (es : List Event) :
    ∀ s, AddressesFresh s → AddressesFresh (run es s) := by
  induction es with
  | nil => intro s h; exact h
  | cons e es ih => intro s h; exact ih _ (step_addressesFresh s e h)

theorem initial_addressesFresh (clear : Bool) (tz loadMs : Int) :
    AddressesFresh (initial clear tz loadMs) :=
  ⟨List.nodup_nil, fun c hc => absurd hc (List.not_mem_nil c),
    fun a ha => absurd ha (List.not_mem_nil a)⟩

/-! ## The claims of the specification -/

/-- C1: a `visibilitychange` event that finds the page visible before the `load` event
has fired runs `init()`, and the `load` event, whose handler does not look at
`initialized`, runs it again: two timers are pending, and once both have fired
`windowManager.init(metaData)` has been called twice. -/
theorem init_runs_twice_when_visibilitychange_precedes_load (tz loadMs : Int)
    (b1 b2 : BootEnv) :
    (run [Event.visibilitychange Visibility.visible, Event.load Visibility.visible]
      (initial false tz loadMs)).calls.count Call.init = 2 ∧
    (run [Event.visibilitychange Visibility.visible, Event.load Visibility.visible]
      (initial false tz loadMs)).timeouts = 2 ∧
    (run [Event.visibilitychange Visibility.visible, Event.load Visibility.visible,
        Event.timeout b1, Event.timeout b2]
      (initial false tz loadMs)).calls.count Call.managerInit = 2 := by
  refine ⟨by simp [run, step, initial, onVisibilityChange, onLoad, init],
    by simp [run, step, initial, onVisibilityChange, onLoad, init], ?_⟩
  have h2 : run [Event.visibilitychange Visibility.visible, Event.load Visibility.visible,
        Event.timeout b1, Event.timeout b2] (initial false tz loadMs) =
      step (bootstrap b1 { initial false tz loadMs with
        initialized := true, timeouts := 1, calls := [Call.init, Call.init] })
        (Event.timeout b2) := by
    simp [run, step, initial, onVisibilityChange, onLoad, init]
  obtain ⟨k1, t1⟩ := bootstrap_control b1 { initial false tz loadMs with
        initialized := true, timeouts := 1, calls := [Call.init, Call.init] }
  rw [h2]
  simp only [step, t1]
  rw [if_neg (by decide), (bootstrap_control b2 _).1]
  simp only [k1]
  decide

/-- C2: after `updateParticleSystems()` the list `particleSystems` has one element
per entry of the snapshot, in the snapshot's order, the `i`-th being the system
`createParticleSystem(i, x + w/2, y + h/2)` of the `i`-th entry, and the systems built
do not depend on the state the function started from; in a state with fresh addresses
every system listed before is no longer a child of `world` and the new ones have been
appended to its children. -/
theorem updateParticleSystems_rebuilds_from_snapshot (wins : List WindowEntry) (s : State) :
    (updateParticleSystems wins s).particleSystems.length = wins.length ∧
    (∀ i win, wins[i]? = some win →
      (updateParticleSystems wins s).particleSystems[i]? =
        some (s.nextAddr + i,
          createParticleSystem i (win.shape.x + win.shape.w / 2)
            (win.shape.y + win.shape.h / 2))) ∧
    (∀ s0 : State,
      (updateParticleSystems wins s0).particleSystems.map Prod.snd =
        (updateParticleSystems wins s).particleSystems.map Prod.snd) ∧
    (AddressesFresh s →
      (∀ p ∈ s.particleSystems, p.1 ∉ (updateParticleSystems wins s).world.children) ∧
      (updateParticleSystems wins s).world.children =
        s.world.children.filter (fun c => decide (c ∉ s.particleSystems.map Prod.fst)) ++
          (updateParticleSystems wins s).particleSystems.map Prod.fst ∧
      (s.world.children = s.particleSystems.map Prod.fst →
        (updateParticleSystems wins s).world.children =
          (updateParticleSystems wins s).particleSystems.map Prod.fst)) := by
  have haddr := updateParticleSystems_addrs wins s
  refine ⟨updateParticleSystems_length wins s, ?_, ?_, ?_⟩
  · intro i win h
    rw [updateParticleSystems_getElem? wins s i win h]
    simp only [one_div, div_eq_mul_inv, one_mul]
  · intro s0
    apply List.ext_getElem?
    intro n
    by_cases hn : n < wins.length
    · have hw : wins[n]? = some wins[n] := List.getElem?_eq_getElem hn
      rw [List.getElem?_map, List.getElem?_map, updateParticleSystems_getElem? wins s n _ hw,
        updateParticleSystems_getElem? wins s0 n _ hw]
      rfl
    · rw [List.getElem?_eq_none (by simp [updateParticleSystems_length]; omega),
        List.getElem?_eq_none (by simp [updateParticleSystems_length]; omega)]
  · rintro ⟨hnodup, hworld, hold⟩
    have hch := updateParticleSystems_children wins s hnodup hworld
    refine ⟨?_, ?_, ?_⟩
    · intro p hp hmem
      rw [hch, List.mem_append] at hmem
      rcases hmem with hmem | hmem
      · have := (List.mem_filter.mp hmem).2
        simp only [decide_eq_true_eq] at this
        exact this (List.mem_map_of_mem Prod.fst hp)
      · have := (List.mem_range'_1.mp hmem).1
        have := hold p.1 (List.mem_map_of_mem Prod.fst hp)
        omega
    · rw [hch, haddr]
    · intro hsame
      rw [hch, haddr, hsame]
      have : List.filter (fun c => decide (c ∉ s.particleSystems.map Prod.fst))
          (s.particleSystems.map Prod.fst) = [] := by
        rw [List.filter_eq_nil_iff]
        intro a ha
        simpa using ha
      rw [this, List.nil_append]

/-- Witness for C2: after the page has started with one window, a snapshot with two
windows replaces the one particle system by two, which are then the children of
`world`. -/
theorem updateParticleSystems_rebuilds_from_snapshot_witness :
    AddressesFresh (booted 0 0 demoBoot) ∧
    (booted 0 0 demoBoot).world.children
      = (booted 0 0 demoBoot).particleSystems.map Prod.fst ∧
    (updateParticleSystems demoWindows2 (booted 0 0 demoBoot)).particleSystems.length
      = demoWindows2.length ∧
    (updateParticleSystems demoWindows2 (booted 0 0 demoBoot)).world.children
      = (updateParticleSystems demoWindows2 (booted 0 0 demoBoot)).particleSystems.map
          Prod.fst :=
  have hfresh : AddressesFresh (booted 0 0 demoBoot) := ⟨by decide, by decide, by decide⟩
  have h := updateParticleSystems_rebuilds_from_snapshot demoWindows2 (booted 0 0 demoBoot)
  ⟨hfresh, by decide, h.1, (h.2.2.2 hfresh).2.2 (by decide)⟩

/-- C3: every call of `render()` calls `windowManager.update()` exactly once and before
`getWindows()`; a call that completes then renders and requests exactly one further
frame, a call that throws requests none.  So after a single `init()`, as long as no
callback has thrown, one frame callback is queued and `update()` has been called once
for the first `render()` and once per animation frame since. -/
theorem render_calls_update_once_per_frame :
    (∀ (env : FrameEnv) (s : State),
      (render env s).2.calls = s.calls ++ [Call.managerUpdate, Call.managerGetWindows] ++
        (if (render env s).1 = Outcome.completed
          then [Call.rendererRender, Call.requestAnimationFrame] else []) ∧
      (render env s).2.rafQueue =
        s.rafQueue + (if (render env s).1 = Outcome.completed then 1 else 0)) ∧
    (∀ (tz loadMs : Int) (b : BootEnv) (es : List Event),
      (∀ e ∈ es, e.isLoad = false) → (run es (booted tz loadMs b)).faults = 0 →
      (run es (booted tz loadMs b)).rafQueue = 1 ∧
      (run es (booted tz loadMs b)).calls.count Call.init = 1 ∧
      (run es (booted tz loadMs b)).calls.count Call.managerUpdate
        = 1 + es.countP Event.isFrame) := by
  refine ⟨fun env s => ⟨render_calls env s, render_rafQueue env s⟩, ?_⟩
  intro tz loadMs b es hl hf
  have h0 : (booted tz loadMs b).faults = 0 :=
    Nat.le_zero.mp (hf ▸ run_faults_mono es (booted tz loadMs b))
  have hb := booted_eq tz loadMs b
  rw [bootstrap_eq] at hb
  obtain ⟨p1, p2, p3, p4, p5⟩ := beforeFirstRender_control b
    { initial false tz loadMs with initialized := true, calls := [Call.init] }
  have hc : (render b.frame (beforeFirstRender b
      { initial false tz loadMs with initialized := true, calls := [Call.init] })).1
        = Outcome.completed := by
    by_contra hc
    rw [hb, renderCallback_faults, if_neg hc, p5] at h0
    simp at h0
  obtain ⟨c1, c2⟩ := renderCallback_control b.frame (beforeFirstRender b
      { initial false tz loadMs with initialized := true, calls := [Call.init] })
  have hone : OneLoop (booted tz loadMs b) := by
    refine ⟨?_, ?_, ?_⟩
    · rw [hb, renderCallback_rafQueue, render_rafQueue, if_pos hc, p2]; rfl
    · rw [hb, c1, p3]; rfl
    · rw [hb, c2, p4]
  have hcalls : (booted tz loadMs b).calls =
      [Call.init, Call.managerInit, Call.windowsUpdated, Call.managerGetWindows,
        Call.managerUpdate, Call.managerGetWindows, Call.rendererRender,
        Call.requestAnimationFrame] := by
    rw [hb, renderCallback_calls, render_calls, if_pos hc, p1]; rfl
  obtain ⟨⟨q, _, _⟩, k, j⟩ := run_oneLoop es (booted tz loadMs b) hone hl (by rw [hf, h0])
  refine ⟨q, ?_, ?_⟩
  · rw [j, hcalls]; decide
  · rw [k, hcalls]
    have : List.count Call.managerUpdate
      [Call.init, Call.managerInit, Call.windowsUpdated, Call.managerGetWindows,
        Call.managerUpdate, Call.managerGetWindows, Call.rendererRender,
        Call.requestAnimationFrame] = 1 := by decide
    rw [this]

/-- Witness for C3: start-up, a frame, a window change and another frame. -/
theorem render_calls_update_once_per_frame_witness :
    (run [Event.animationFrame demoFrame, Event.windowChange demoWindows2,
        Event.animationFrame { demoFrame with windows := demoWindows2 }]
      (booted 0 0 demoBoot)).faults = 0 ∧
    (run [Event.animationFrame demoFrame, Event.windowChange demoWindows2,
        Event.animationFrame { demoFrame with windows := demoWindows2 }]
      (booted 0 0 demoBoot)).calls.count Call.managerUpdate = 3 :=
  have h := render_calls_update_once_per_frame.2 0 0 demoBoot
    [Event.animationFrame demoFrame, Event.windowChange demoWindows2,
      Event.animationFrame { demoFrame with windows := demoWindows2 }]
    (by decide) (by decide)
  ⟨by decide, h.2.2⟩

/-- C4: in a call of `render()` the particle system at index `i` is moved toward the
centre of the `i`-th window of the snapshot read in that call,
`new = old + (centre - old) * 0.05` on both axes, and gets the current time; a call
that completes has found such a window for every index.  The object stays the one it was
(same address, index and geometry), the list of systems and the children of `world` are
not rebuilt, and `windowsUpdated` is not called. -/
theorem render_moves_system_toward_window (env : FrameEnv) (s : State) (i a : Nat)
    (old : ParticleSystem) (hps : s.particleSystems[i]? = some (a, old)) :
    (∀ win, env.windows[i]? = some win →
      ∃ new, (render env s).2.particleSystems[i]? = some (a, new) ∧
        new.position.x =
          old.position.x + ((win.shape.x + win.shape.w / 2) - old.position.x) * 0.05 ∧
        new.position.y =
          old.position.y + ((win.shape.y + win.shape.h / 2) - old.position.y) * 0.05 ∧
        new.time = getTime s.today env.now ∧
        new.windowIndex = old.windowIndex ∧ new.centerX = old.centerX ∧
        new.centerY = old.centerY) ∧
    ((render env s).1 = Outcome.completed → ∃ win, env.windows[i]? = some win) ∧
    (render env s).2.particleSystems.map Prod.fst = s.particleSystems.map Prod.fst ∧
    (render env s).2.world.children = s.world.children ∧
    (render env s).2.nextAddr = s.nextAddr ∧
    (∃ l, (render env s).2.calls = s.calls ++ l ∧ Call.windowsUpdated ∉ l) := by
  have hi : i < s.particleSystems.length := by
    by_contra hc
    rw [List.getElem?_eq_none (by omega)] at hps
    cases hps
  refine ⟨?_, ?_, ?_, (render_untouched env s).2.2.2.2.2.1,
    (render_untouched env s).2.2.2.2.2.2.1, ?_⟩
  · intro win hwin
    have hloop := renderLoop_getElem? env.windows (getTime s.today env.now) s.particleSystems
      0 i a old win hps (by simpa using hwin)
    refine ⟨{ old with
      position :=
        ⟨old.position.x + (win.shape.x + win.shape.w * (1 / 2) - old.position.x) * falloff,
         old.position.y + (win.shape.y + win.shape.h * (1 / 2) - old.position.y) * falloff⟩
      time := getTime s.today env.now },
      by rw [render_particleSystems]; exact hloop, ?_, ?_, rfl, rfl, rfl, rfl⟩
    · simp only [falloff]; norm_num; ring
    · simp only [falloff]; norm_num; ring
  · intro hc
    have hlen := (render_completed_iff env s).mp hc
    exact ⟨env.windows[i], List.getElem?_eq_getElem (by omega)⟩
  · rw [render_particleSystems, renderLoop_addrs]
  · refine ⟨_, by rw [render_calls, List.append_assoc], ?_⟩
    split <;> simp

/-- Witness for C4: in the first frame after start-up the system of window "1" moves
from (5/2, 5/4) toward the window centre (50, 25). -/
theorem render_moves_system_toward_window_witness :
    (booted 0 0 demoBoot).particleSystems[0]?
      = some (0, ⟨0, 50, 25, ⟨5 / 2, 5 / 4⟩, 1⟩) ∧
    demoFrame.windows[0]? = some ⟨"1", ⟨0, 0, 100, 50⟩, [("foo", "bar")], 0⟩ ∧
    ∃ new : ParticleSystem,
      (render demoFrame (booted 0 0 demoBoot)).2.particleSystems[0]? = some (0, new) ∧
      new.position.x = (5 / 2 : ℚ) + (((0 : ℚ) + 100 / 2) - 5 / 2) * 0.05 :=
  have h := render_moves_system_toward_window demoFrame (booted 0 0 demoBoot) 0 0
    ⟨0, 50, 25, ⟨5 / 2, 5 / 4⟩, 1⟩ (by decide!)
  ⟨by decide!, by decide,
    (h.1 ⟨"1", ⟨0, 0, 100, 50⟩, [("foo", "bar")], 0⟩ (by decide)).imp
      fun _ hn => ⟨hn.1, hn.2.1⟩⟩

/-- C5: a surface loaded at 23:59:00 and a surface loaded two minutes later, at
00:01:00 of the next day, are asked for `getTime()` at the same instant 00:02:00; the
first answers 86520 seconds and the second 120 seconds, which is the number of seconds
since the start of the day of that instant. -/
theorem getTime_differs_for_surfaces_loaded_on_different_days :
    getTime (today 0 86340000) 86520000 = 86520 ∧
    getTime (today 0 86460000) 86520000 = 120 ∧
    secondsSinceStartOfDay 0 86520000 = 120 ∧
    getTime (today 0 86340000) 86520000 ≠ getTime (today 0 86460000) 86520000 := by
  have h1 : getTime (today 0 86340000) 86520000 = 86520 := by
    norm_num [getTime, today, msPerDay]
  have h2 : getTime (today 0 86460000) 86520000 = 120 := by
    norm_num [getTime, today, msPerDay]
  refine ⟨h1, h2, by norm_num [secondsSinceStartOfDay, msPerDay], ?_⟩
  rw [h1, h2]
  norm_num

/-- C6: the ids of the sequence returned by `getWindows()` are the current set of ids in
ascending order, whatever the order in which the entries arrived, also after an entry
has been removed; adding an entry with id "5" to a registry holding "1" and "3" gives
"1", "3", "5", and removing "3" then gives "1", "5". -/
theorem getWindows_order_is_function_of_id_set :
    (∀ (own : String) (es : List WindowEntry),
      ids (Registry.getWindows (Registry.ofArrivals own es))
        = Finset.sort (· ≤ ·) (ids es).toFinset ∧
      (ids (Registry.getWindows (Registry.ofArrivals own es))).Sorted (· < ·)) ∧
    (∀ (own : String) (es : List WindowEntry) (i : String),
      ids (Registry.getWindows (Registry.removeEntry (Registry.ofArrivals own es) i))
        = Finset.sort (· ≤ ·) ((ids es).toFinset.erase i)) ∧
    (∀ (own : String) (es es' : List WindowEntry),
      (ids es).toFinset = (ids es').toFinset →
      ids (Registry.getWindows (Registry.ofArrivals own es))
        = ids (Registry.getWindows (Registry.ofArrivals own es'))) ∧
    (∀ (own : String) (first : List WindowEntry),
      first = [entryWithId "1", entryWithId "3"] ∨
        first = [entryWithId "3", entryWithId "1"] →
      ids (Registry.getWindows
        (Registry.addEntry own (Registry.ofArrivals own first) (entryWithId "5")))
          = ["1", "3", "5"] ∧
      ids (Registry.getWindows (Registry.removeEntry
        (Registry.addEntry own (Registry.ofArrivals own first) (entryWithId "5")) "3"))
          = ["1", "5"]) := by
  refine ⟨fun own es => ⟨ofArrivals_ids own es, ?_⟩, removeEntry_ids, ?_, ?_⟩
  · obtain ⟨h1, h2, _⟩ := ofArrivals_wf own es
    exact h1.lt_of_le h2
  · intro own es es' h
    unfold Registry.getWindows
    rw [ofArrivals_ids, ofArrivals_ids, h]
  · intro own first hfirst
    apply ids_example
    rcases hfirst with rfl | rfl
    · ext i; simp [ids, entryWithId]
    · ext i; simp [ids, entryWithId]; tauto

/-- Witness for C6: the entries "5", "1", "3" and the entries "1", "3", "5", "1" give
the same sequence. -/
theorem getWindows_order_is_function_of_id_set_witness :
    ids (Registry.getWindows (Registry.ofArrivals "1"
        [entryWithId "5", entryWithId "1", entryWithId "3"]))
      = ids (Registry.getWindows (Registry.ofArrivals "1"
        [entryWithId "1", entryWithId "3", entryWithId "5", entryWithId "1"])) ∧
    ids (Registry.getWindows (Registry.addEntry "1"
        (Registry.ofArrivals "1" [entryWithId "3", entryWithId "1"]) (entryWithId "5")))
      = ["1", "3", "5"] :=
  ⟨getWindows_order_is_function_of_id_set.2.2.1 "1"
      [entryWithId "5", entryWithId "1", entryWithId "3"]
      [entryWithId "1", entryWithId "3", entryWithId "5", entryWithId "1"]
      (by ext i; simp [ids, entryWithId]; tauto),
    (getWindows_order_is_function_of_id_set.2.2.2 "1" [entryWithId "3", entryWithId "1"]
      (Or.inr rfl)).1⟩

/-- C7: while the target stays at `T`, a call of `render()` replaces the offset `s` by
`s + (T - s) * 0.05` on both axes and puts `world` there, so `T - s` is multiplied by
`0.95`; after `n` calls the remaining offset is `0.95 ^ n` times the initial one, its
magnitude has not grown and its sign has not changed, and an offset equal to `T` stays
equal to `T`.  Arithmetic is exact. -/
theorem sceneOffset_eases_geometrically_without_overshoot (T : Vec2) (envs : List FrameEnv)
    (s : State) (hT : s.sceneOffsetTarget = T) (hheld : ∀ env ∈ envs, env.holdsTarget T) :
    (∀ env : FrameEnv, env.holdsTarget T →
      (render env s).2.offset =
        ⟨s.offset.x + (T.x - s.offset.x) * 0.05, s.offset.y + (T.y - s.offset.y) * 0.05⟩ ∧
      (render env s).2.world.position = (render env s).2.offset ∧
      T.x - (render env s).2.offset.x = 0.95 * (T.x - s.offset.x) ∧
      T.y - (render env s).2.offset.y = 0.95 * (T.y - s.offset.y)) ∧
    (renders envs s).sceneOffsetTarget = T ∧
    T.x - (renders envs s).offset.x = 0.95 ^ envs.length * (T.x - s.offset.x) ∧
    T.y - (renders envs s).offset.y = 0.95 ^ envs.length * (T.y - s.offset.y) ∧
    (envs ≠ [] → (renders envs s).world.position = (renders envs s).offset) ∧
    |T.x - (renders envs s).offset.x| ≤ |T.x - s.offset.x| ∧
    |T.y - (renders envs s).offset.y| ≤ |T.y - s.offset.y| ∧
    SignType.sign (T.x - (renders envs s).offset.x) = SignType.sign (T.x - s.offset.x) ∧
    SignType.sign (T.y - (renders envs s).offset.y) = SignType.sign (T.y - s.offset.y) ∧
    (s.offset = T → (renders envs s).offset = T) := by
  have hc : (0.95 : ℚ) = 19 / 20 := by norm_num
  have hf : (0.05 : ℚ) = falloff := by simp only [falloff]; norm_num
  obtain ⟨g1, g2, g3, g4⟩ := renders_eases T envs s hT hheld
  have hpos : (0 : ℚ) < (19 / 20) ^ envs.length := pow_pos (by norm_num) _
  have hle : (19 / 20 : ℚ) ^ envs.length ≤ 1 := pow_le_one₀ (by norm_num) (by norm_num)
  have habs : ∀ d e : ℚ, d = (19 / 20) ^ envs.length * e → |d| ≤ |e| := by
    intro d e h
    rw [h, abs_mul, abs_of_pos hpos]
    exact mul_le_of_le_one_left (abs_nonneg e) hle
  have hsign : ∀ d e : ℚ, d = (19 / 20) ^ envs.length * e →
      SignType.sign d = SignType.sign e := by
    intro d e h
    rw [h, sign_mul, sign_pos hpos, one_mul]
  refine ⟨?_, g1, by rw [hc]; exact g2, by rw [hc]; exact g3, g4, habs _ _ g2, habs _ _ g3,
    hsign _ _ g2, hsign _ _ g3, ?_⟩
  · intro env henv
    obtain ⟨e1, e2, e3⟩ := render_eases env s T hT henv
    rw [hf, hc]
    refine ⟨e2, e3, ?_, ?_⟩
    · rw [e2]; simp only [falloff]; ring
    · rw [e2]; simp only [falloff]; ring
  · intro hs
    rw [hs, sub_self, mul_zero, sub_eq_zero] at g2 g3
    cases hr : (renders envs s).offset with
    | mk x y =>
      rw [hr] at g2 g3
      cases T with
      | mk tx ty =>
        simp only at g2 g3
        rw [g2, g3]

/-- Witness for C7: the window has been dragged from (10, 20) to (30, 40), so the
target is (-30, -40) while the offset is at (-11, -21); two further frames, the second
with a shape-change callback that leaves the window where it is, take the offset to
(-5141/400, -9141/400), and the remaining 19 has been multiplied by `0.95 ^ 2`. -/
theorem sceneOffset_eases_geometrically_without_overshoot_witness :
    demoDragged.sceneOffsetTarget = ⟨-30, -40⟩ ∧
    demoDragged.offset = ⟨-11, -21⟩ ∧
    demoFrame.holdsTarget ⟨-30, -40⟩ ∧ demoMovedFrame.holdsTarget ⟨-30, -40⟩ ∧
    (renders [demoFrame, demoMovedFrame] demoDragged).offset = ⟨-5141 / 400, -9141 / 400⟩ ∧
    (-30 : ℚ) - (renders [demoFrame, demoMovedFrame] demoDragged).offset.x
      = 0.95 ^ 2 * ((-30 : ℚ) - demoDragged.offset.x) ∧
    (-40 : ℚ) - (renders [demoFrame, demoMovedFrame] demoDragged).offset.y
      = 0.95 ^ 2 * ((-40 : ℚ) - demoDragged.offset.y) ∧
    (renders [demoFrame, demoMovedFrame] demoDragged).world.position
      = (renders [demoFrame, demoMovedFrame] demoDragged).offset :=
  have held : ∀ env ∈ [demoFrame, demoMovedFrame], env.holdsTarget ⟨-30, -40⟩ := by
    intro env henv
    simp only [List.mem_cons, List.mem_singleton, List.not_mem_nil, or_false] at henv
    rcases henv with rfl | rfl
    · trivial
    · exact ⟨Or.inr rfl, by norm_num [demoMovedFrame], by norm_num [demoMovedFrame]⟩
  have h := sceneOffset_eases_geometrically_without_overshoot ⟨-30, -40⟩
    [demoFrame, demoMovedFrame] demoDragged (by decide!) held
  ⟨by decide!, by decide!, held demoFrame (by simp), held demoMovedFrame (by simp),
    by decide!, h.2.2.1, h.2.2.2.1, h.2.2.2.2.1 (by simp)⟩

/-- C8: `updateWindowShape(false)` sets the target and the offset to
`(-screenX, -screenY)`; called without argument or with a truthy argument, such as a
shape object, it sets the target only and the value of the offset stays what it was.
Nothing else in the state changes. -/
theorem updateWindowShape_sets_target_and_snaps_only_without_easing
    (screenX screenY : ℚ) (s : State) :
    ((updateWindowShape screenX screenY (Arg.boolean false) s).sceneOffsetTarget
        = ⟨-screenX, -screenY⟩ ∧
      (updateWindowShape screenX screenY (Arg.boolean false) s).offset
        = ⟨-screenX, -screenY⟩ ∧
      updateWindowShape screenX screenY (Arg.boolean false) s =
        { s with sceneOffsetTarget := ⟨-screenX, -screenY⟩,
                 sceneOffset := OffsetRef.sameAsTarget }) ∧
    (∀ a : Arg, a = Arg.undefined ∨ a.truthy = true →
      (updateWindowShape screenX screenY a s).sceneOffsetTarget = ⟨-screenX, -screenY⟩ ∧
      (updateWindowShape screenX screenY a s).offset = s.offset ∧
      updateWindowShape screenX screenY a s =
        { s with sceneOffsetTarget := ⟨-screenX, -screenY⟩,
                 sceneOffset := OffsetRef.own s.offset }) ∧
    (∀ shape : Shape, (Arg.object shape).truthy = true) := by
  refine ⟨⟨rfl, rfl, rfl⟩, ?_, fun _ => rfl⟩
  intro a ha
  have hd : a.orDefaultTrue.truthy = true := by
    rcases ha with rfl | ha
    · rfl
    · cases a <;> simp_all [Arg.orDefaultTrue, Arg.truthy]
  have heq : updateWindowShape screenX screenY a s =
      { s with sceneOffsetTarget := ⟨-screenX, -screenY⟩,
               sceneOffset := OffsetRef.own s.offset } := by
    unfold updateWindowShape
    simp [hd]
  rw [heq]
  exact ⟨rfl, rfl, rfl⟩

/-- Witness for C8: the callback invoked with a shape object at screen position
(30, 40) moves the target and leaves the offset where it was. -/
theorem updateWindowShape_sets_target_and_snaps_only_without_easing_witness :
    (Arg.object ⟨30, 40, 100, 50⟩).truthy = true ∧
    (updateWindowShape 30 40 (Arg.object ⟨30, 40, 100, 50⟩)
      (booted 0 0 demoBoot)).sceneOffsetTarget = ⟨-30, -40⟩ ∧
    (updateWindowShape 30 40 (Arg.object ⟨30, 40, 100, 50⟩) (booted 0 0 demoBoot)).offset
      = (booted 0 0 demoBoot).offset :=
  have h := (updateWindowShape_sets_target_and_snaps_only_without_easing 30 40
    (booted 0 0 demoBoot)).2.1 (Arg.object ⟨30, 40, 100, 50⟩) (Or.inr rfl)
  ⟨rfl, h.1, h.2.1⟩

/-- C9: `render()` gets through its loop, every `wins[i]` with
`i < particleSystems.length` being defined, exactly when `particleSystems` is not
longer than the snapshot read in that call; right after `updateParticleSystems()` the
two lengths are equal, so a call on the same snapshot completes; and when the snapshot
is shorter the call throws after `update()` and `getWindows()`, before the scene is
rendered and before a further frame is requested. -/
theorem render_completes_iff_snapshot_long_enough (env : FrameEnv) (s : State) :
    ((render env s).1 = Outcome.completed ↔
      ∀ i, i < s.particleSystems.length → (env.windows[i]?).isSome = true) ∧
    ((render env s).1 = Outcome.completed ↔ s.particleSystems.length ≤ env.windows.length) ∧
    (∀ wins, (updateParticleSystems wins s).particleSystems.length = wins.length) ∧
    (∀ wins, (render { env with windows := wins } (updateParticleSystems wins s)).1
      = Outcome.completed) ∧
    (env.windows.length < s.particleSystems.length →
      (render env s).1 = Outcome.threw ∧
      (render env s).2.rafQueue = s.rafQueue ∧
      (render env s).2.calls = s.calls ++ [Call.managerUpdate, Call.managerGetWindows]) := by
  have hiff := render_completed_iff env s
  refine ⟨?_, hiff, fun wins => updateParticleSystems_length wins s, ?_, ?_⟩
  · rw [hiff]
    constructor
    · intro h i hi
      rw [List.getElem?_eq_getElem (by omega)]; rfl
    · intro h
      by_contra hc
      have := h env.windows.length (by omega)
      simp at this
  · intro wins
    rw [render_completed_iff, updateParticleSystems_length]
  · intro hlt
    have hne : (render env s).1 ≠ Outcome.completed := fun hc => by
      have := hiff.mp hc; omega
    refine ⟨?_, ?_, ?_⟩
    · cases h : (render env s).1
      · exact absurd h hne
      · rfl
    · rw [render_rafQueue, if_neg hne, Nat.add_zero]
    · rw [render_calls, if_neg hne, List.append_nil]

/-- Witness for C9: with one particle system and an empty snapshot `render()` throws
and no frame is requested. -/
theorem render_completes_iff_snapshot_long_enough_witness :
    demoEmptyFrame.windows.length < (booted 0 0 demoBoot).particleSystems.length ∧
    (render demoEmptyFrame (booted 0 0 demoBoot)).1 = Outcome.threw ∧
    (render demoEmptyFrame (booted 0 0 demoBoot)).2.rafQueue = 1 :=
  have h := (render_completes_iff_snapshot_long_enough demoEmptyFrame
    (booted 0 0 demoBoot)).2.2.2.2 (by decide)
  ⟨by decide, h.1, h.2.1⟩

end MultiWindow
